import Mathlib

/-!
# The SDL tile demo (`main.cpp`)

A shallow embedding of `main.cpp`: the program opens a window, creates
`NUM_TEXTURES` one-colour tiles, blits them once into an off-screen buffer and
presents that buffer until a window-close or escape event arrives.

Everything outside the program is an input of the model:

* `World` holds what the SDL calls answer (return codes, whether a creation
  call yields a null pointer, the polled events);
* `Engine` is the `std::mt19937_64` engine, seen as the stream of its raw
  outputs together with a cursor;
* `StdLib` is `std::uniform_int_distribution`, taken by its contract (each
  call yields a value of `[a, b]` and may take any number of raw outputs);
* `blend` is the renderer's `SDL_BLENDMODE_BLEND` pixel operation.

`drawTiles` reads `textures[i]` without a bounds check. A read past the end
of the vector falls into the storage `reserve` obtained; the pointer found
there is no texture, the SDL calls that get it fail, and the run goes on.
-/

namespace Demo

/-! ## Constants -/

def NUM_TEXTURES : Nat := 120
def TEXTURE_WIDTH : Nat := 90
def TEXTURE_HEIGHT : Nat := 60

/-- Value of `SDL_WINDOWEVENT` in `SDL_events.h`. -/
def SDL_WINDOWEVENT : Nat := 0x200
/-- Value of `SDL_KEYDOWN` in `SDL_events.h`. -/
def SDL_KEYDOWN : Nat := 0x300
/-- Value of `SDL_WINDOWEVENT_CLOSE` in `SDL_video.h`. -/
def SDL_WINDOWEVENT_CLOSE : Nat := 14
/-- Value of `SDL_PRESSED` in `SDL_events.h`. -/
def SDL_PRESSED : Nat := 1
/-- Value of `SDLK_ESCAPE` in `SDL_keycode.h`. -/
def SDLK_ESCAPE : Int := 27
/-- Value of `SDL_ALPHA_OPAQUE` in `SDL_pixels.h`. -/
def SDL_ALPHA_OPAQUE : Nat := 255

/-! ## Random numbers -/

/-- The engine `std::mt19937_64 engine{dev()}`: the stream of raw outputs its
seed determines, and how many of them have been taken. -/
structure Engine where
  outputs : Nat → Nat
  pos : Nat

/-- The library's `std::uniform_int_distribution<T>(a, b)`, by its contract:
a call on an engine yields a value of `[a, b]` and the engine after the call.
How many raw outputs the call takes is left to the library (it may reject an
output and take another). -/
structure StdLib where
  uniform : Nat → Nat → Engine → Nat × Engine
  uniform_range : ∀ a b e, a ≤ b → a ≤ (uniform a b e).1 ∧ (uniform a b e).1 ≤ b

/-- One call `distribution(engine)` for a distribution over `[a, b]`. -/
def sample (L : StdLib) (a b : Nat) (e : Engine) : Nat × Engine :=
  L.uniform a b e

/-- The value in `[a, b]` a distribution makes of an accepted raw output. -/
def scale (a b raw : Nat) : Nat := if a ≤ b then a + raw % 2 ^ 64 % (b - a + 1) else a

/-- A distribution that meets the contract of `StdLib` and takes one raw
output per call, for running the model on concrete inputs. -/
def modLib : StdLib where
  uniform := fun a b e => (scale a b (e.outputs e.pos), { e with pos := e.pos + 1 })
  uniform_range := by
    intro a b e hab
    have h : e.outputs e.pos % 2 ^ 64 % (b - a + 1) < b - a + 1 := Nat.mod_lt _ (Nat.succ_pos _)
    simp only [scale, hab, if_true]
    omega

/-- The 32-bit word of an `SDL_PIXELFORMAT_ARGB8888` pixel with the channels
`a`, `r`, `g`, `b`. -/
def ARGB8888 (a r g b : Nat) : Nat := a * 2 ^ 24 + r * 2 ^ 16 + g * 2 ^ 8 + b

/-- The expression `a << 24 | r << 16 | g << 8 | b` of `createTextures`, stored
in a `uint32_t`. The operands are `uint8_t` promoted to 32-bit `int`; the bit
pattern of the result is kept by the conversion to `uint32_t`. -/
def color (a r g b : Nat) : Nat :=
  ((((a <<< 24) ||| (r <<< 16)) ||| (g <<< 8)) ||| b) % 2 ^ 32

inductive SDL_BlendMode
  | NONE
  | BLEND
  deriving DecidableEq, Repr

structure SDL_Rect where
  x : Int
  y : Int
  w : Int
  h : Int
  deriving DecidableEq, Repr

/-- Whether the pixel `(px, py)` lies in the rectangle. -/
def SDL_Rect.covers (r : SDL_Rect) (px py : Int) : Prop :=
  r.x ≤ px ∧ px < r.x + r.w ∧ r.y ≤ py ∧ py < r.y + r.h

instance (r : SDL_Rect) (px py : Int) : Decidable (r.covers px py) := by
  unfold SDL_Rect.covers; infer_instance

/-! ## Resources and the record of calls -/

/-- The objects the program obtains from SDL. -/
inductive Resource
  | window
  | renderer
  | buffer
  | surface (i : Nat)
  | tile (i : Nat)
  deriving DecidableEq, Repr

/-- The calls of a run that the properties below speak about, in the order
they are made. `acquire` is a creation call that returned a non-null pointer,
`release` a `SDL_Destroy*` or `SDL_FreeSurface` call, `renderCopy` a
`SDL_RenderCopy` of `drawTiles` with a texture, `copyRejected` one that SDL
rejects because the pointer is no texture. -/
inductive Call
  | acquire (r : Resource)
  | release (r : Resource)
  | fillRect (i : Nat) (c : Nat)
  | drawTiles
  | renderCopy (i : Nat) (dest : SDL_Rect)
  | copyRejected (i : Nat) (dest : SDL_Rect)
  | pollEvent
  | draw
  | present
  | quit
  deriving DecidableEq, Repr

/-- An `SDL_Texture`: its pixels (addressed from its top-left corner) and its
blend mode. -/
structure SDL_Texture where
  handle : Resource
  w : Int
  h : Int
  pixels : Int → Int → Nat
  blendMode : SDL_BlendMode

/-- Where the renderer draws: the window, or the texture `buffer`. -/
inductive Target
  | window
  | texture
  deriving DecidableEq, Repr

/-- The fields of `SDL_Event` that `main` reads. -/
structure SDL_Event where
  type : Nat
  window_event : Nat
  key_state : Nat
  key_sym : Int
  deriving DecidableEq, Repr

/-- The globals of `main.cpp` (`engine`, `buffer`, `textures`), the state of
the renderer, and the record of the run. A null pointer is `none`. -/
structure State where
  engine : Engine
  buffer : Option SDL_Texture
  textures : List (Option SDL_Texture)
  target : Target
  drawColor : Nat
  clip : Option SDL_Rect
  outW : Int
  outH : Int
  screen : Int → Int → Nat
  presented : List (Int → Int → Nat)
  trace : List Call

/-- What SDL answers during a run. -/
structure World where
  initRet : Int
  modeRet : Int
  mode_w : Int
  mode_h : Int
  windowOk : Bool
  rendererOk : Bool
  bufferOk : Bool
  surfaceOk : Nat → Bool
  textureOk : Nat → Bool
  bufferInit : Int → Int → Nat
  screenInit : Int → Int → Nat
  polls : List (Option SDL_Event)

/-- How a run ends: `main` returns a status, or the polled events given are
used up with the loop still running. -/
inductive Outcome
  | exit (status : Int)
  | running
  deriving DecidableEq, Repr

def State.log (s : State) (c : Call) : State := { s with trace := s.trace ++ [c] }

/-! ## The SDL calls that draw -/

def SDL_SetRenderTarget (t : Option SDL_Texture) (s : State) : State :=
  match t with
  | none => { s with target := Target.window }
  | some _ => { s with target := Target.texture }

def SDL_SetRenderDrawColor (r g b a : Nat) (s : State) : State :=
  { s with drawColor := ARGB8888 a r g b }

/-- The call `SDL_RenderClear`: the whole current target takes the draw colour. -/
def SDL_RenderClear (s : State) : State :=
  match s.target with
  | Target.window => { s with screen := fun _ _ => s.drawColor }
  | Target.texture =>
    { s with buffer := s.buffer.map fun t => { t with pixels := fun _ _ => s.drawColor } }

def SDL_SetTextureBlendMode (t : Option SDL_Texture) (m : SDL_BlendMode) : Option SDL_Texture :=
  t.map fun tex => { tex with blendMode := m }

def SDL_RenderSetClipRect (r : SDL_Rect) (s : State) : State :=
  { s with clip := some r }

def SDL_RenderSetLogicalSize (w h : Int) (s : State) : State :=
  { s with outW := w, outH := h }

/-- The pixel a copy leaves: the source pixel under `SDL_BLENDMODE_NONE`, the
source blended over the old pixel under `SDL_BLENDMODE_BLEND`. -/
def compose (blend : Nat → Nat → Nat) (m : SDL_BlendMode) (src dst : Nat) : Nat :=
  match m with
  | SDL_BlendMode.NONE => src
  | SDL_BlendMode.BLEND => blend src dst

/-- The pixels of a `W x H` target after a whole texture is copied to the
rectangle `dest` of the same size, inside the clip rectangle. -/
def paint (blend : Nat → Nat → Nat) (tex : SDL_Texture) (dest : SDL_Rect)
    (clip : Option SDL_Rect) (W H : Int) (old : Int → Int → Nat) : Int → Int → Nat :=
  fun px py =>
    if dest.covers px py ∧ (∀ c ∈ clip, c.covers px py) ∧ 0 ≤ px ∧ px < W ∧ 0 ≤ py ∧ py < H then
      compose blend tex.blendMode (tex.pixels (px - dest.x) (py - dest.y)) (old px py)
    else old px py

/-- The call `SDL_RenderCopy(renderer, t, nullptr, &dest)`. With a null texture
the call fails and draws nothing. -/
def SDL_RenderCopy (blend : Nat → Nat → Nat) (t : Option SDL_Texture) (dest : SDL_Rect)
    (s : State) : State :=
  match t with
  | none => s
  | some tex =>
    match s.target with
    | Target.window =>
      { s with screen := paint blend tex dest s.clip s.outW s.outH s.screen }
    | Target.texture =>
      { s with buffer := s.buffer.map fun b =>
          { b with pixels := paint blend tex dest s.clip b.w b.h b.pixels } }

def SDL_RenderPresent (s : State) : State :=
  { s with presented := s.presented ++ [s.screen], trace := s.trace ++ [Call.present] }

/-! ## The program -/

/-- The conversion of an `int` to `bool` at `return 1;` in a function that
returns `bool`. -/
def boolOfInt (n : Int) : Bool := n != 0

/-- The tile loop of `createTextures` (lines 119-154), `n` iterations from
index `i`. Both failure branches leave by `return 1;`. -/
def createTexturesLoop (L : StdLib) (w : World) : Nat → Nat → State → Bool × State
  | 0, _, s => (true, s)
  | n + 1, i, s =>
    let (r, e1) := sample L 10 255 s.engine
    let (g, e2) := sample L 10 255 e1
    let (b, e3) := sample L 10 255 e2
    let (a, e4) := sample L 10 255 e3
    let c := color (a % 256) (r % 256) (g % 256) (b % 256)
    let s := { s with engine := e4 }
    if w.surfaceOk i = false then
      (boolOfInt 1, s)
    else
      let s := (s.log (Call.acquire (Resource.surface i))).log (Call.fillRect i c)
      if w.textureOk i = false then
        (boolOfInt 1, s)
      else
        let texture : SDL_Texture :=
          { handle := Resource.tile i, w := TEXTURE_WIDTH, h := TEXTURE_HEIGHT,
            pixels := fun _ _ => c, blendMode := SDL_BlendMode.BLEND }
        let s := s.log (Call.acquire (Resource.tile i))
        let s := { s with textures := s.textures ++ [some texture] }
        let s := s.log (Call.release (Resource.surface i))
        createTexturesLoop L w n (i + 1) s

/-- The function `createTextures` (lines 103-157). -/
def createTextures (L : StdLib) (w : World) (s : State) : Bool × State :=
  if w.bufferOk = false then
    (false, { s with buffer := none })
  else
    let buf : SDL_Texture :=
      { handle := Resource.buffer, w := 1024, h := 768,
        pixels := w.bufferInit, blendMode := SDL_BlendMode.NONE }
    let s := { s with buffer := some buf }
    let s := s.log (Call.acquire Resource.buffer)
    createTexturesLoop L w NUM_TEXTURES 0 s

/-- The body of the tile loop of `drawTiles` (lines 164-175) for the pointer `t`
read from `textures[i]`. -/
def drawTile (L : StdLib) (blend : Nat → Nat → Nat) (i : Nat) (t : Option SDL_Texture)
    (s : State) : State :=
  let (x, e1) := sample L 0 (1024 - TEXTURE_WIDTH) s.engine
  let (y, e2) := sample L 0 (768 - TEXTURE_HEIGHT) e1
  let textureDest : SDL_Rect :=
    { x := x, y := y, w := TEXTURE_WIDTH, h := TEXTURE_HEIGHT }
  let blended := SDL_SetTextureBlendMode t SDL_BlendMode.BLEND
  let s := { s with engine := e2, textures := s.textures.set i blended }
  let s := SDL_RenderSetClipRect textureDest s
  let s := SDL_RenderCopy blend blended textureDest s
  s.log (if t.isSome = true then Call.renderCopy i textureDest
         else Call.copyRejected i textureDest)

/-- The tile loop of `drawTiles` (lines 163-176), `n` iterations from index
`i`. The read `textures[i]` is unchecked: past the end of the vector it yields
a pointer that is no texture (`none`), and the loop goes on. The flag records
whether every read was inside the vector; the program does not see it. -/
def drawTilesLoop (L : StdLib) (blend : Nat → Nat → Nat) : Nat → Nat → State → Bool × State
  | 0, _, s => (true, s)
  | n + 1, i, s =>
    match s.textures[i]? with
    | none => (false, (drawTilesLoop L blend n (i + 1) (drawTile L blend i none s)).2)
    | some t => drawTilesLoop L blend n (i + 1) (drawTile L blend i t s)

/-- Lines 160-162 of `drawTiles`: the buffer becomes the target and is
cleared to opaque black. -/
def drawTilesBegin (s : State) : State :=
  let s := s.log Call.drawTiles
  let s := SDL_SetRenderTarget s.buffer s
  let s := SDL_SetRenderDrawColor 0 0 0 SDL_ALPHA_OPAQUE s
  SDL_RenderClear s

/-- The function `drawTiles` (lines 159-177). -/
def drawTiles (L : StdLib) (blend : Nat → Nat → Nat) (s : State) : Bool × State :=
  drawTilesLoop L blend NUM_TEXTURES 0 (drawTilesBegin s)

/-- The function `draw` (lines 179-190). -/
def draw (blend : Nat → Nat → Nat) (s : State) : State :=
  let s := s.log Call.draw
  let s := SDL_SetRenderTarget none s
  let s := SDL_SetRenderDrawColor 0 0 0 SDL_ALPHA_OPAQUE s
  let s := SDL_RenderClear s
  let dest : SDL_Rect := { x := 0, y := 0, w := 1024, h := 768 }
  let s := { s with buffer := SDL_SetTextureBlendMode s.buffer SDL_BlendMode.NONE }
  let s := SDL_RenderSetClipRect dest s
  let s := SDL_RenderCopy blend s.buffer dest s
  SDL_RenderPresent s

/-- The calls `SDL_DestroyTexture` make of the tiles (lines 195-198). -/
def destroyTiles : List (Option SDL_Texture) → List Call
  | [] => []
  | none :: ts => destroyTiles ts
  | some t :: ts => Call.release t.handle :: destroyTiles ts

/-- The function `destroyTextures` (lines 192-199). -/
def destroyTextures (s : State) : State :=
  let s :=
    match s.buffer with
    | none => s
    | some b => s.log (Call.release b.handle)
  { s with trace := s.trace ++ destroyTiles s.textures,
           textures := s.textures.map fun _ => none }

/-- The value of `running` after the `switch` of lines 72-90 on one poll
result (`none`: no event pending). When it is `false` the iteration ends by
`continue`, before `draw`. -/
def handleEvent (p : Option SDL_Event) : Bool :=
  match p with
  | none => true
  | some event =>
    if event.type = SDL_WINDOWEVENT then
      if event.window_event = SDL_WINDOWEVENT_CLOSE then false else true
    else if event.type = SDL_KEYDOWN then
      if event.key_state = SDL_PRESSED then
        if event.key_sym = SDLK_ESCAPE then false else true
      else true
    else true

/-- The loop `while (running)` of lines 68-93 on the given poll results. The
flag is `true` when the loop is left, `false` when the poll results are used
up first. -/
def mainLoop (blend : Nat → Nat → Nat) : List (Option SDL_Event) → State → Bool × State
  | [], s => (false, s)
  | p :: ps, s =>
    let s := s.log Call.pollEvent
    if handleEvent p = false then (true, s)
    else mainLoop blend ps (draw blend s)

/-- The state `main` starts from. -/
def initialState (w : World) (e : Engine) : State :=
  { engine := e, buffer := none, textures := [], target := Target.window,
    drawColor := 0, clip := none, outW := w.mode_w, outH := w.mode_h,
    screen := w.screenInit, presented := [], trace := [] }

/-- The function `main` (lines 22-101). -/
def main (L : StdLib) (blend : Nat → Nat → Nat) (w : World) (e : Engine) : Outcome × State :=
  let s := initialState w e
  if w.initRet = -1 then (Outcome.exit 1, s)
  else if w.modeRet ≠ 0 then (Outcome.exit 1, s)
  else if w.windowOk = false then (Outcome.exit 1, s)
  else
    let s := s.log (Call.acquire Resource.window)
    if w.rendererOk = false then (Outcome.exit 1, s)
    else
      let s := s.log (Call.acquire Resource.renderer)
      let s := SDL_RenderSetLogicalSize 1024 768 s
      match createTextures L w s with
      | (false, s) => (Outcome.exit 1, s)
      | (true, s) =>
        let s := (drawTiles L blend s).2
        match mainLoop blend w.polls s with
        | (false, s) => (Outcome.running, s)
        | (true, s) =>
          let s := destroyTextures s
          let s := s.log (Call.release Resource.renderer)
          let s := s.log (Call.release Resource.window)
          let s := s.log Call.quit
          (Outcome.exit 0, s)

/-! ## Concrete inputs -/

def closeEvent : SDL_Event :=
  { type := SDL_WINDOWEVENT, window_event := SDL_WINDOWEVENT_CLOSE, key_state := 0, key_sym := 0 }

def otherKeyEvent : SDL_Event :=
  { type := SDL_KEYDOWN, window_event := 0, key_state := SDL_PRESSED, key_sym := 97 }

/-- A run in which every call succeeds and a window-close event arrives on
the third poll. -/
def goodWorld : World :=
  { initRet := 0, modeRet := 0, mode_w := 1920, mode_h := 1080,
    windowOk := true, rendererOk := true, bufferOk := true,
    surfaceOk := fun _ => true, textureOk := fun _ => true,
    bufferInit := fun _ _ => 0, screenInit := fun _ _ => 0,
    polls := [none, some otherKeyEvent, some closeEvent, none] }

def testEngine : Engine := { outputs := fun k => 7919 * k + 13, pos := 0 }

/-- The blend of two opaque-or-not pixels used on concrete inputs: a fully
opaque source replaces the pixel, any other leaves the sum of the words. -/
def testBlend (src dst : Nat) : Nat := if src / 2 ^ 24 = 255 then src else (src + dst) % 2 ^ 32

/-! ## Specification-side definitions -/

/-- The exit triggers as the specification words them: a window event whose
sub-event is window-close, or a key-down event in pressed state whose key is
escape. -/
def isExitTrigger : Option SDL_Event → Bool
  | none => false
  | some ev =>
    (decide (ev.type = SDL_WINDOWEVENT) && decide (ev.window_event = SDL_WINDOWEVENT_CLOSE)) ||
    (decide (ev.type = SDL_KEYDOWN) && decide (ev.key_state = SDL_PRESSED) &&
      decide (ev.key_sym = SDLK_ESCAPE))

/-- The bounds of the `k`-th distribution call of a run without a failed
creation call: 480 colour calls over `[10, 255]`, then for each tile an `x`
call over `[0, 934]` and a `y` call over `[0, 708]`. -/
def callBounds (k : Nat) : Nat × Nat :=
  if k < 480 then (10, 255) else if (k - 480) % 2 = 0 then (0, 934) else (0, 708)

/-- The engine after the first `k` distribution calls of such a run that
starts with the engine `e`. -/
def engineAfter (L : StdLib) (e : Engine) : Nat → Engine
  | 0 => e
  | k + 1 => (L.uniform (callBounds k).1 (callBounds k).2 (engineAfter L e k)).2

/-- The value of the `k`-th distribution call (counted from 0) of a run that
starts with the engine `e`, the call being over `[a, b]`. -/
def draws (L : StdLib) (a b : Nat) (e : Engine) (k : Nat) : Nat :=
  (L.uniform a b (engineAfter L e k)).1

/-- The colour word of tile `i` when generation starts with the engine `e`:
the calls `4i .. 4i+3` give `r`, `g`, `b`, `a` in this order. -/
def tileColor (L : StdLib) (e : Engine) (i : Nat) : Nat :=
  color (draws L 10 255 e (4 * i + 3) % 256) (draws L 10 255 e (4 * i) % 256)
    (draws L 10 255 e (4 * i + 1) % 256) (draws L 10 255 e (4 * i + 2) % 256)

/-- The destination of tile `i` when generation starts with the engine `e`:
the calls after the 480 colour calls give `x`, then `y`. -/
def tileDest (L : StdLib) (e : Engine) (i : Nat) : SDL_Rect :=
  { x := draws L 0 934 e (480 + 2 * i), y := draws L 0 708 e (480 + 2 * i + 1), w := 90, h := 60 }

/-- The calls of one successful iteration of the tile loop of `createTextures`. -/
def tileCalls (i c : Nat) : List Call :=
  [Call.acquire (Resource.surface i), Call.fillRect i c, Call.acquire (Resource.tile i),
   Call.release (Resource.surface i)]

/-- The texture `createTextures` makes for tile `i` with colour word `c`. -/
def tileTexture (i c : Nat) : SDL_Texture :=
  { handle := Resource.tile i, w := TEXTURE_WIDTH, h := TEXTURE_HEIGHT,
    pixels := fun _ _ => c, blendMode := SDL_BlendMode.BLEND }

/-- A destination rectangle of tile size that lies inside the 1024x768 buffer. -/
def destInBuffer (d : SDL_Rect) : Prop :=
  d.w = 90 ∧ d.h = 60 ∧ 0 ≤ d.x ∧ d.x ≤ 934 ∧ 0 ≤ d.y ∧ d.y ≤ 708 ∧
    d.x + 90 ≤ 1024 ∧ d.y + 60 ≤ 768

/-- One step of the in-order composition at the pixel `(px, py)`: a tile of
colour word `tile.1` drawn at `tile.2` is blended over the pixel when it covers
it. -/
def blendOver (blend : Nat → Nat → Nat) (px py : Int) (acc : Nat) (tile : Nat × SDL_Rect) : Nat :=
  if tile.2.covers px py then blend tile.1 acc else acc

/-- The tiles of a run that starts generation with the engine `e`, in
generation order: colour word and destination. -/
def tilesOf (L : StdLib) (e : Engine) (n : Nat) : List (Nat × SDL_Rect) :=
  (List.range' 0 n).map fun i => (tileColor L e i, tileDest L e i)

/-- The handles of the textures in `textures`, null pointers left out. -/
def handlesOf (ts : List (Option SDL_Texture)) : List Resource :=
  ts.filterMap fun t => t.map SDL_Texture.handle

/-- The image a present call shows when the buffer `b` was copied to the
cleared 1024x768 output: the buffer's pixels, opaque black elsewhere. -/
def frameOf (b : SDL_Texture) : Int → Int → Nat :=
  fun px py =>
    if 0 ≤ px ∧ px < 1024 ∧ 0 ≤ py ∧ py < 768 then b.pixels px py else ARGB8888 255 0 0 0

/-- The calls the presentation loop makes on the given poll results: every
poll before the first exit trigger is followed by one `draw` with its present
call, the poll that finds the trigger ends the loop. -/
def loopCalls : List (Option SDL_Event) → List Call
  | [] => []
  | p :: ps =>
    if isExitTrigger p = true then [Call.pollEvent]
    else Call.pollEvent :: Call.draw :: Call.present :: loopCalls ps

/-- The number of polls that precede the first exit trigger. -/
def pollsBeforeExit (polls : List (Option SDL_Event)) : Nat :=
  (polls.takeWhile fun p => !isExitTrigger p).length

/-- Every setup step before the tiles succeeds: subsystem initialisation, the
display-mode query, and the creation of window, renderer and composite
buffer. -/
def SetupOk (w : World) : Prop :=
  w.initRet ≠ -1 ∧ w.modeRet = 0 ∧ w.windowOk = true ∧ w.rendererOk = true ∧ w.bufferOk = true

/-- No surface or texture allocation of a tile fails. -/
def TilesOk (w : World) : Prop :=
  ∀ i, i < NUM_TEXTURES → w.surfaceOk i = true ∧ w.textureOk i = true

/-- The calls of `destroyTextures` and of lines 96-98 in a run that created
`k` tiles. -/
def shutdownCallsOf (k : Nat) : List Call :=
  [Call.release Resource.buffer] ++
    (List.range' 0 k).map (fun i => Call.release (Resource.tile i)) ++
    [Call.release Resource.renderer, Call.release Resource.window, Call.quit]

/-- The calls of `destroyTextures` and of lines 96-98 in a run whose tiles were
all created. -/
def shutdownCalls : List Call := shutdownCallsOf NUM_TEXTURES

/-- The calls of a run up to the presentation loop when every creation call
succeeds and generation starts with the engine `e`. -/
def startupCalls (L : StdLib) (e : Engine) : List Call :=
  [Call.acquire Resource.window, Call.acquire Resource.renderer, Call.acquire Resource.buffer] ++
    (List.range' 0 NUM_TEXTURES).flatMap (fun i => tileCalls i (tileColor L e i)) ++
    [Call.drawTiles] ++
    (List.range' 0 NUM_TEXTURES).map (fun i => Call.renderCopy i (tileDest L e i))

/-- The graphics resources whose release the specification asks for: window,
renderer, composite buffer and tile textures. The surface of a tile is a
temporary of one loop iteration. -/
def isGraphics : Resource → Bool
  | Resource.surface _ => false
  | _ => true

/-- The graphics resources a run acquires, in the order of acquisition. -/
def acquired (tr : List Call) : List Resource :=
  tr.filterMap fun c =>
    match c with
    | Call.acquire r => if isGraphics r = true then some r else none
    | _ => none

/-- The graphics resources a run releases, in the order of release. -/
def released (tr : List Call) : List Resource :=
  tr.filterMap fun c =>
    match c with
    | Call.release r => if isGraphics r = true then some r else none
    | _ => none

/-- The destinations of a run, each with the index of its tile, in the order
of the `SDL_RenderCopy` calls of `drawTiles`. -/
def drawPositions (tr : List Call) : List (Nat × SDL_Rect) :=
  tr.filterMap fun c =>
    match c with
    | Call.renderCopy i d => some (i, d)
    | _ => none

/-- The state in which `main` calls `createTextures` (after line 57). -/
def stateBeforeTextures (w : World) (e : Engine) : State :=
  SDL_RenderSetLogicalSize 1024 768
    (((initialState w e).log (Call.acquire Resource.window)).log (Call.acquire Resource.renderer))

/-- The state in which the tile loop of `createTextures` starts (line 119)
when the composite buffer was created. -/
def loopStart (w : World) (e : Engine) : State :=
  State.log { stateBeforeTextures w e with
    buffer := some { handle := Resource.buffer, w := 1024, h := 768,
                     pixels := w.bufferInit, blendMode := SDL_BlendMode.NONE } }
    (Call.acquire Resource.buffer)

/-- A run in which the creation of the surface of tile 0 fails. -/
def surfaceFailWorld : World := { goodWorld with surfaceOk := fun i => decide (i ≠ 0) }

/-- A run in which `SDL_CreateTextureFromSurface` fails for tile 1. -/
def textureFailWorld : World := { goodWorld with textureOk := fun i => decide (i ≠ 1) }

/-- A run in which the creation of the renderer fails. -/
def rendererFailWorld : World := { goodWorld with rendererOk := false }

/-- An engine whose outputs give tile 0 the channels (200, 50, 80, 255) and the
position (10, 20) under `modLib`. -/
def scenarioEngine : Engine :=
  { outputs := fun k =>
      if k = 0 then 190 else if k = 1 then 40 else if k = 2 then 70 else if k = 3 then 245
      else if k = 480 then 10 else if k = 481 then 20 else 31 * k + 7,
    pos := 0 }

theorem color_eq_ARGB8888 {a r g b : Nat} (ha : a < 256) (hr : r < 256) (hg : g < 256)
    (hb : b < 256) : color a r g b = ARGB8888 a r g b := by
  unfold color ARGB8888
  simp only [Nat.shiftLeft_eq]
  have e1 : a * 2 ^ 24 ||| r * 2 ^ 16 = a * 2 ^ 24 + r * 2 ^ 16 := by
    have h := Nat.mul_add_lt_is_or (show r * 2 ^ 16 < 2 ^ 24 by omega) a
    have e : a * 2 ^ 24 = 2 ^ 24 * a := Nat.mul_comm _ _
    rw [e]; exact h.symm
  have e2 : (a * 2 ^ 24 + r * 2 ^ 16) ||| g * 2 ^ 8 = a * 2 ^ 24 + r * 2 ^ 16 + g * 2 ^ 8 := by
    have h := Nat.mul_add_lt_is_or (show g * 2 ^ 8 < 2 ^ 16 by omega) (a * 2 ^ 8 + r)
    have e : a * 2 ^ 24 + r * 2 ^ 16 = 2 ^ 16 * (a * 2 ^ 8 + r) := by omega
    rw [e]; exact h.symm
  have e3 : (a * 2 ^ 24 + r * 2 ^ 16 + g * 2 ^ 8) ||| b
      = a * 2 ^ 24 + r * 2 ^ 16 + g * 2 ^ 8 + b := by
    have h := Nat.mul_add_lt_is_or (show b < 2 ^ 8 by omega) (a * 2 ^ 16 + r * 2 ^ 8 + g)
    have e : a * 2 ^ 24 + r * 2 ^ 16 + g * 2 ^ 8 = 2 ^ 8 * (a * 2 ^ 16 + r * 2 ^ 8 + g) := by omega
    rw [e]; exact h.symm
  rw [e1, e2, e3]
  omega

theorem ARGB8888_bytes {a r g b : Nat} (ha : a < 256) (hr : r < 256) (hg : g < 256)
    (hb : b < 256) :
    ARGB8888 a r g b / 2 ^ 24 % 256 = a ∧ ARGB8888 a r g b / 2 ^ 16 % 256 = r ∧
    ARGB8888 a r g b / 2 ^ 8 % 256 = g ∧ ARGB8888 a r g b % 256 = b := by
  unfold ARGB8888
  omega

theorem draws_range (L : StdLib) (e : Engine) (a b k : Nat) (h : a ≤ b) :
    a ≤ draws L a b e k ∧ draws L a b e k ≤ b :=
  L.uniform_range a b _ h

theorem engineAfter_color (L : StdLib) (e : Engine) (k : Nat) (h : k < 480) :
    (L.uniform 10 255 (engineAfter L e k)).2 = engineAfter L e (k + 1) := by
  have hcb : callBounds k = (10, 255) := by simp [callBounds, h]
  show _ = (L.uniform (callBounds k).1 (callBounds k).2 (engineAfter L e k)).2
  rw [hcb]

theorem engineAfter_x (L : StdLib) (e : Engine) (i : Nat) :
    (L.uniform 0 934 (engineAfter L e (480 + 2 * i))).2 = engineAfter L e (480 + 2 * i + 1) := by
  have h1 : ¬ (480 + 2 * i < 480) := by omega
  have h2 : (480 + 2 * i - 480) % 2 = 0 := by omega
  have hcb : callBounds (480 + 2 * i) = (0, 934) := by simp only [callBounds, h1, h2, if_true, if_false]
  show _ = (L.uniform (callBounds (480 + 2 * i)).1 (callBounds (480 + 2 * i)).2
    (engineAfter L e (480 + 2 * i))).2
  rw [hcb]

theorem engineAfter_y (L : StdLib) (e : Engine) (i : Nat) :
    (L.uniform 0 708 (engineAfter L e (480 + 2 * i + 1))).2
      = engineAfter L e (480 + 2 * (i + 1)) := by
  have h1 : ¬ (480 + 2 * i + 1 < 480) := by omega
  have h2 : ¬ ((480 + 2 * i + 1 - 480) % 2 = 0) := by omega
  have hcb : callBounds (480 + 2 * i + 1) = (0, 708) := by
    simp only [callBounds, h1, h2, if_false]
  have h3 : 480 + 2 * (i + 1) = 480 + 2 * i + 1 + 1 := by omega
  rw [h3]
  show _ = (L.uniform (callBounds (480 + 2 * i + 1)).1 (callBounds (480 + 2 * i + 1)).2
    (engineAfter L e (480 + 2 * i + 1))).2
  rw [hcb]

/-! ## The tile loop of `createTextures` -/

theorem boolOfInt_one : boolOfInt 1 = true := by decide

theorem createTexturesLoop_fst (L : StdLib) (w : World) (n i : Nat) (s : State) :
    (createTexturesLoop L w n i s).1 = true := by
  induction n generalizing i s with
  | zero => rfl
  | succ n ih =>
    simp only [createTexturesLoop, sample]
    split
    · exact boolOfInt_one
    · split
      · exact boolOfInt_one
      · exact ih _ _

/-- The colour and the engine one iteration of the tile loop of
`createTextures` computes, when it starts after `4i` distribution calls. -/
theorem tile_step (L : StdLib) (e0 : Engine) (i : Nat) (hi : i < NUM_TEXTURES) :
    color ((L.uniform 10 255 (L.uniform 10 255 (L.uniform 10 255
        (L.uniform 10 255 (engineAfter L e0 (4 * i))).2).2).2).1 % 256)
      ((L.uniform 10 255 (engineAfter L e0 (4 * i))).1 % 256)
      ((L.uniform 10 255 (L.uniform 10 255 (engineAfter L e0 (4 * i))).2).1 % 256)
      ((L.uniform 10 255 (L.uniform 10 255
        (L.uniform 10 255 (engineAfter L e0 (4 * i))).2).2).1 % 256)
      = tileColor L e0 i ∧
    (L.uniform 10 255 (L.uniform 10 255 (L.uniform 10 255
        (L.uniform 10 255 (engineAfter L e0 (4 * i))).2).2).2).2
      = engineAfter L e0 (4 * (i + 1)) := by
  have hi' : i < 120 := hi
  have h4 : 4 * (i + 1) = 4 * i + 3 + 1 := by omega
  rw [engineAfter_color L e0 (4 * i) (by omega), engineAfter_color L e0 (4 * i + 1) (by omega),
    engineAfter_color L e0 (4 * i + 1 + 1) (by omega),
    engineAfter_color L e0 (4 * i + 1 + 1 + 1) (by omega), h4]
  exact ⟨rfl, rfl⟩

theorem createTexturesLoop_ok (L : StdLib) (w : World) (e0 : Engine) (n i : Nat) (s : State)
    (heng : s.engine = engineAfter L e0 (4 * i)) (hn : i + n ≤ NUM_TEXTURES)
    (hok : ∀ j, i ≤ j → j < i + n → w.surfaceOk j = true ∧ w.textureOk j = true) :
    createTexturesLoop L w n i s =
      (true, { s with
        engine := engineAfter L e0 (4 * (i + n)),
        textures := s.textures ++
          (List.range' i n).map (fun j => some (tileTexture j (tileColor L e0 j))),
        trace := s.trace ++
          (List.range' i n).flatMap (fun j => tileCalls j (tileColor L e0 j)) }) := by
  induction n generalizing i s with
  | zero =>
    obtain ⟨en, _⟩ := s
    simp only at heng
    subst heng
    simp [createTexturesLoop]
  | succ n ih =>
    have hi := hok i (Nat.le_refl _) (by omega)
    obtain ⟨hc, he⟩ := tile_step L e0 i (by omega)
    simp only [createTexturesLoop, sample, hi.1, hi.2, heng, hc, he, State.log]
    rw [ih (i + 1) _ (by rfl) (by omega) (fun j h1 h2 => hok j (by omega) (by omega))]
    simp [List.range'_succ, tileCalls, tileTexture, Nat.add_assoc, Nat.add_comm 1 n]

theorem createTexturesLoop_gen (L : StdLib) (w : World) (e0 : Engine) (n i : Nat) (s : State)
    (heng : s.engine = engineAfter L e0 (4 * i)) (hn : i + n ≤ NUM_TEXTURES) :
    ∃ e1 k tr, (createTexturesLoop L w n i s).2 =
        { s with engine := e1,
                 textures := s.textures ++
                   (List.range' i k).map (fun j => some (tileTexture j (tileColor L e0 j))),
                 trace := s.trace ++ tr } ∧
      (∀ c ∈ tr, ∃ j, i ≤ j ∧ j < i + n ∧ c ∈ tileCalls j (tileColor L e0 j)) ∧
      acquired tr = (List.range' i k).map Resource.tile ∧ released tr = [] ∧
      k ≤ n ∧
      ((∃ j, i ≤ j ∧ j < i + n ∧ (w.surfaceOk j = false ∨ w.textureOk j = false)) → k < n) := by
  induction n generalizing i s with
  | zero =>
    refine ⟨s.engine, 0, [], ?_, ?_, rfl, rfl, Nat.le_refl _, ?_⟩
    · simp [createTexturesLoop]
    · simp
    · rintro ⟨j, h1, h2, _⟩; omega
  | succ n ih =>
    obtain ⟨hc, he⟩ := tile_step L e0 i (by omega)
    simp only [createTexturesLoop, sample, heng, hc, he, State.log]
    by_cases hs : w.surfaceOk i = false
    · simp only [hs, if_true]
      refine ⟨engineAfter L e0 (4 * (i + 1)), 0, [], ?_, ?_, rfl, rfl, Nat.zero_le _, ?_⟩
      · simp
      · simp
      · intro _; omega
    · simp only [hs, if_false]
      by_cases ht : w.textureOk i = false
      · simp only [ht, if_true]
        refine ⟨engineAfter L e0 (4 * (i + 1)), 0,
          [Call.acquire (Resource.surface i), Call.fillRect i (tileColor L e0 i)],
          ?_, ?_, rfl, rfl, Nat.zero_le _, ?_⟩
        · simp
        · intro c hcm
          refine ⟨i, Nat.le_refl _, by omega, ?_⟩
          simp only [List.mem_cons, List.mem_singleton, List.not_mem_nil, or_false] at hcm
          rcases hcm with h | h <;> simp [h, tileCalls]
        · intro _; omega
      · simp only [ht, if_false]
        obtain ⟨e1, k, tr, heq, htr, hacq, hrel, hlen, hfail⟩ := ih (i + 1)
          (State.mk (engineAfter L e0 (4 * (i + 1))) s.buffer
            (s.textures ++ [some (SDL_Texture.mk (Resource.tile i) TEXTURE_WIDTH TEXTURE_HEIGHT
              (fun _ _ => tileColor L e0 i) SDL_BlendMode.BLEND)])
            s.target s.drawColor s.clip s.outW s.outH s.screen s.presented
            (s.trace ++ [Call.acquire (Resource.surface i)] ++
              [Call.fillRect i (tileColor L e0 i)] ++ [Call.acquire (Resource.tile i)] ++
              [Call.release (Resource.surface i)]))
          (by rfl) (by omega)
        have happ : ∀ a b : List Call, acquired (a ++ b) = acquired a ++ acquired b :=
          fun a b => List.filterMap_append _ _ _
        have hrpp : ∀ a b : List Call, released (a ++ b) = released a ++ released b :=
          fun a b => List.filterMap_append _ _ _
        refine ⟨e1, k + 1, tileCalls i (tileColor L e0 i) ++ tr, ?_, ?_, ?_, ?_, ?_, ?_⟩
        · exact heq.trans (by simp [tileCalls, tileTexture, List.range'_succ])
        · intro c hcm
          rcases List.mem_append.1 hcm with h | h
          · exact ⟨i, Nat.le_refl _, by omega, h⟩
          · obtain ⟨j, h1, h2, h3⟩ := htr c h
            exact ⟨j, by omega, by omega, h3⟩
        · rw [happ, hacq, List.range'_succ]; rfl
        · rw [hrpp, hrel]; rfl
        · omega
        · rintro ⟨j, h1, h2, h3⟩
          have hji : j ≠ i := by
            rintro rfl
            rcases h3 with h3 | h3
            · exact hs h3
            · exact ht h3
          have := hfail ⟨j, by omega, by omega, h3⟩
          omega

/-! ## The tile loop of `drawTiles` -/

theorem SDL_RenderCopy_frame (blend : Nat → Nat → Nat) (t : Option SDL_Texture)
    (d : SDL_Rect) (s : State) :
    (SDL_RenderCopy blend t d s).trace = s.trace ∧
    (SDL_RenderCopy blend t d s).presented = s.presented ∧
    (SDL_RenderCopy blend t d s).textures = s.textures ∧
    (SDL_RenderCopy blend t d s).engine = s.engine ∧
    (SDL_RenderCopy blend t d s).outW = s.outW ∧
    (SDL_RenderCopy blend t d s).outH = s.outH ∧
    (SDL_RenderCopy blend t d s).buffer.map SDL_Texture.handle
      = s.buffer.map SDL_Texture.handle := by
  cases t with
  | none => simp [SDL_RenderCopy]
  | some tex =>
    cases h : s.target with
    | window => simp [SDL_RenderCopy, h]
    | texture => cases hb : s.buffer <;> simp [SDL_RenderCopy, h, hb]

theorem tileDest_inBuffer (L : StdLib) (e : Engine) (i : Nat) : destInBuffer (tileDest L e i) := by
  have hx := draws_range L e 0 934 (480 + 2 * i) (by omega)
  have hy := draws_range L e 0 708 (480 + 2 * i + 1) (by omega)
  refine ⟨rfl, rfl, ?_, ?_, ?_, ?_, ?_, ?_⟩ <;> simp only [tileDest] <;> omega

theorem drawTile_frame (L : StdLib) (blend : Nat → Nat → Nat) (i : Nat)
    (t : Option SDL_Texture) (s : State) :
    (∃ d, destInBuffer d ∧ (drawTile L blend i t s).trace = s.trace ++
      [if t.isSome = true then Call.renderCopy i d else Call.copyRejected i d]) ∧
    (drawTile L blend i t s).presented = s.presented ∧
    (drawTile L blend i t s).textures
      = s.textures.set i (SDL_SetTextureBlendMode t SDL_BlendMode.BLEND) ∧
    (drawTile L blend i t s).outW = s.outW ∧ (drawTile L blend i t s).outH = s.outH ∧
    (drawTile L blend i t s).buffer.map SDL_Texture.handle
      = s.buffer.map SDL_Texture.handle := by
  have hx := L.uniform_range 0 934 s.engine (by omega)
  have hy := L.uniform_range 0 708 (L.uniform 0 934 s.engine).2 (by omega)
  have e1 : 1024 - TEXTURE_WIDTH = 934 := by decide
  have e2 : 768 - TEXTURE_HEIGHT = 708 := by decide
  have hd : destInBuffer (SDL_Rect.mk (L.uniform 0 934 s.engine).1
      (L.uniform 0 708 (L.uniform 0 934 s.engine).2).1 TEXTURE_WIDTH TEXTURE_HEIGHT) := by
    refine ⟨rfl, rfl, ?_, ?_, ?_, ?_, ?_, ?_⟩ <;> simp only [TEXTURE_WIDTH, TEXTURE_HEIGHT] <;>
      omega
  simp only [drawTile, sample, State.log, SDL_RenderSetClipRect, e1, e2]
  refine ⟨⟨_, hd, ?_⟩, ?_, ?_, ?_, ?_, ?_⟩
  · rw [(SDL_RenderCopy_frame _ _ _ _).1]
  · rw [(SDL_RenderCopy_frame _ _ _ _).2.1]
  · rw [(SDL_RenderCopy_frame _ _ _ _).2.2.1]
  · rw [(SDL_RenderCopy_frame _ _ _ _).2.2.2.2.1]
  · rw [(SDL_RenderCopy_frame _ _ _ _).2.2.2.2.2.1]
  · rw [(SDL_RenderCopy_frame _ _ _ _).2.2.2.2.2.2]

theorem handlesOf_set (l : List (Option SDL_Texture)) (i : Nat) (t t' : Option SDL_Texture)
    (h : l[i]? = some t) (hh : t'.map SDL_Texture.handle = t.map SDL_Texture.handle) :
    handlesOf (l.set i t') = handlesOf l := by
  induction l generalizing i with
  | nil => simp
  | cons a l ih =>
    cases i with
    | zero =>
      simp only [List.getElem?_cons_zero, Option.some.injEq] at h
      subst h
      simp [handlesOf, List.filterMap_cons, hh]
    | succ i =>
      simp only [List.getElem?_cons_succ] at h
      have := ih i h
      simp only [handlesOf] at this
      simp [handlesOf, List.filterMap_cons, this]

theorem set_past_end (l : List (Option SDL_Texture)) (i : Nat) (t : Option SDL_Texture)
    (h : l[i]? = none) : l.set i t = l := by
  induction l generalizing i with
  | nil => rfl
  | cons a l ih =>
    cases i with
    | zero => simp at h
    | succ i =>
      simp only [List.getElem?_cons_succ] at h
      simp [List.set, ih i h]

theorem drawTilesLoop_gen (L : StdLib) (blend : Nat → Nat → Nat) (n i : Nat) (s : State) :
    ∃ tr, (drawTilesLoop L blend n i s).2.trace = s.trace ++ tr ∧
      (∀ c ∈ tr, ∃ j d, (c = Call.renderCopy j d ∨ c = Call.copyRejected j d) ∧
        i ≤ j ∧ j < i + n ∧ destInBuffer d) ∧
      (drawTilesLoop L blend n i s).2.presented = s.presented ∧
      (drawTilesLoop L blend n i s).2.outW = s.outW ∧
      (drawTilesLoop L blend n i s).2.outH = s.outH ∧
      (drawTilesLoop L blend n i s).2.buffer.map SDL_Texture.handle
        = s.buffer.map SDL_Texture.handle ∧
      handlesOf (drawTilesLoop L blend n i s).2.textures = handlesOf s.textures := by
  induction n generalizing i s with
  | zero => exact ⟨[], by simp [drawTilesLoop], by simp, rfl, rfl, rfl, rfl, rfl⟩
  | succ n ih =>
    have key : ∀ t : Option SDL_Texture,
        (s.textures[i]? = none ∧ t = none) ∨ s.textures[i]? = some t →
        ∃ tr, (drawTilesLoop L blend n (i + 1) (drawTile L blend i t s)).2.trace
            = s.trace ++ tr ∧
          (∀ c ∈ tr, ∃ j d, (c = Call.renderCopy j d ∨ c = Call.copyRejected j d) ∧
            i ≤ j ∧ j < i + (n + 1) ∧ destInBuffer d) ∧
          (drawTilesLoop L blend n (i + 1) (drawTile L blend i t s)).2.presented
            = s.presented ∧
          (drawTilesLoop L blend n (i + 1) (drawTile L blend i t s)).2.outW = s.outW ∧
          (drawTilesLoop L blend n (i + 1) (drawTile L blend i t s)).2.outH = s.outH ∧
          (drawTilesLoop L blend n (i + 1) (drawTile L blend i t s)).2.buffer.map
            SDL_Texture.handle = s.buffer.map SDL_Texture.handle ∧
          handlesOf (drawTilesLoop L blend n (i + 1) (drawTile L blend i t s)).2.textures
            = handlesOf s.textures := by
      intro t ht
      obtain ⟨⟨d, hd2, hd1⟩, hp, htx, hw, hh, hb⟩ := drawTile_frame L blend i t s
      obtain ⟨tr, h1, h2, h3, h4, h5, h6, h7⟩ := ih (i + 1) (drawTile L blend i t s)
      refine ⟨(if t.isSome = true then Call.renderCopy i d else Call.copyRejected i d) :: tr,
        ?_, ?_, ?_, ?_, ?_, ?_, ?_⟩
      · rw [h1, hd1]; simp
      · intro c hc
        rcases List.mem_cons.1 hc with h | h
        · refine ⟨i, d, ?_, Nat.le_refl _, by omega, hd2⟩
          rw [h]
          split
          · exact Or.inl rfl
          · exact Or.inr rfl
        · obtain ⟨j, d', e1, e2, e3, e4⟩ := h2 c h
          exact ⟨j, d', e1, by omega, by omega, e4⟩
      · rw [h3, hp]
      · rw [h4, hw]
      · rw [h5, hh]
      · rw [h6, hb]
      · rw [h7, htx]
        rcases ht with ⟨hn, rfl⟩ | hs
        · rw [set_past_end _ _ _ hn]
        · exact handlesOf_set _ _ _ _ hs (by cases t <;> rfl)
    cases ht : s.textures[i]? with
    | none =>
      simp only [drawTilesLoop, ht]
      exact key none (Or.inl ⟨ht, rfl⟩)
    | some t =>
      simp only [drawTilesLoop, ht]
      exact key t (Or.inr ht)

theorem drawTilesLoop_len (L : StdLib) (blend : Nat → Nat → Nat) (n i : Nat) (s : State) :
    (drawTilesLoop L blend n i s).2.textures.length = s.textures.length := by
  induction n generalizing i s with
  | zero => rfl
  | succ n ih =>
    cases ht : s.textures[i]? with
    | none =>
      simp only [drawTilesLoop, ht]
      rw [ih, (drawTile_frame L blend i none s).2.2.1]; simp
    | some t =>
      simp only [drawTilesLoop, ht]
      rw [ih, (drawTile_frame L blend i t s).2.2.1]; simp

theorem drawTile_ok (L : StdLib) (blend : Nat → Nat → Nat) (e0 : Engine) (i c : Nat)
    (tex : SDL_Texture) (s : State) (b : SDL_Texture)
    (htarget : s.target = Target.texture) (hbuf : s.buffer = some b)
    (hw : b.w = 1024) (hh : b.h = 768) (hc : tex.pixels = fun _ _ => c)
    (heng : s.engine = engineAfter L e0 (480 + 2 * i)) :
    drawTile L blend i (some tex) s =
      { s with
        engine := engineAfter L e0 (480 + 2 * (i + 1)),
        textures := s.textures.set i (some { tex with blendMode := SDL_BlendMode.BLEND }),
        clip := some (tileDest L e0 i),
        buffer := some { b with
          pixels := fun px py => blendOver blend px py (b.pixels px py) (c, tileDest L e0 i) },
        trace := s.trace ++ [Call.renderCopy i (tileDest L e0 i)] } := by
  have e1 : 1024 - TEXTURE_WIDTH = 934 := by decide
  have e2 : 768 - TEXTURE_HEIGHT = 708 := by decide
  have hd : SDL_Rect.mk (L.uniform 0 934 (engineAfter L e0 (480 + 2 * i))).1
      (L.uniform 0 708 (engineAfter L e0 (480 + 2 * i + 1))).1
      TEXTURE_WIDTH TEXTURE_HEIGHT = tileDest L e0 i := rfl
  have hin := tileDest_inBuffer L e0 i
  simp only [drawTile, sample, State.log, SDL_RenderSetClipRect, e1, e2, heng, engineAfter_x,
    engineAfter_y, hd, SDL_SetTextureBlendMode, Option.map_some', SDL_RenderCopy, htarget, hbuf,
    Option.isSome_some, if_true]
  have hp : paint blend { tex with blendMode := SDL_BlendMode.BLEND } (tileDest L e0 i)
      (some (tileDest L e0 i)) b.w b.h b.pixels
      = fun px py => blendOver blend px py (b.pixels px py) (c, tileDest L e0 i) := by
    funext px py
    obtain ⟨h1, h2, h3, h4, h5, h6, h7, h8⟩ := hin
    simp only [paint, blendOver, compose, hc, hw, hh, Option.mem_def, Option.some.injEq,
      forall_eq']
    by_cases hcov : (tileDest L e0 i).covers px py
    · have hcov' := hcov
      simp only [SDL_Rect.covers, h1, h2] at hcov'
      have : (tileDest L e0 i).covers px py ∧ (tileDest L e0 i).covers px py ∧
          0 ≤ px ∧ px < 1024 ∧ 0 ≤ py ∧ py < 768 :=
        ⟨hcov, hcov, by omega, by omega, by omega, by omega⟩
      rw [if_pos this, if_pos hcov]
    · have : ¬ ((tileDest L e0 i).covers px py ∧ (tileDest L e0 i).covers px py ∧
          0 ≤ px ∧ px < 1024 ∧ 0 ≤ py ∧ py < 768) := fun h => hcov h.1
      rw [if_neg this, if_neg hcov]
  simp only [hp, Option.map_some']

theorem drawTilesLoop_ok (L : StdLib) (blend : Nat → Nat → Nat) (e0 : Engine) (cs : Nat → Nat)
    (n i : Nat) (s : State) (b : SDL_Texture)
    (htarget : s.target = Target.texture) (hbuf : s.buffer = some b)
    (hw : b.w = 1024) (hh : b.h = 768)
    (heng : s.engine = engineAfter L e0 (480 + 2 * i))
    (htex : ∀ j, i ≤ j → j < i + n →
      ∃ tex, s.textures[j]? = some (some tex) ∧ tex.pixels = fun _ _ => cs j) :
    ∃ s' b', drawTilesLoop L blend n i s = (true, s') ∧ s'.buffer = some b' ∧
      b'.w = 1024 ∧ b'.h = 768 ∧ b'.handle = b.handle ∧
      (∀ px py, b'.pixels px py =
        ((List.range' i n).map fun j => (cs j, tileDest L e0 j)).foldl
          (blendOver blend px py) (b.pixels px py)) ∧
      s'.trace = s.trace ++ (List.range' i n).map (fun j => Call.renderCopy j (tileDest L e0 j)) ∧
      s'.engine = engineAfter L e0 (480 + 2 * (i + n)) ∧
      s'.target = Target.texture ∧ s'.presented = s.presented ∧
      handlesOf s'.textures = handlesOf s.textures ∧ s'.outW = s.outW ∧ s'.outH = s.outH := by
  induction n generalizing i s b with
  | zero =>
    exact ⟨s, b, rfl, hbuf, hw, hh, rfl, by simp, by simp, heng, htarget, rfl, rfl, rfl, rfl⟩
  | succ n ih =>
    obtain ⟨tex, ht, hc⟩ := htex i (Nat.le_refl _) (by omega)
    have hstep := drawTile_ok L blend e0 i (cs i) tex s b htarget hbuf hw hh hc heng
    have hlen : i < s.textures.length := by
      by_contra hcon
      rw [List.getElem?_eq_none (by omega)] at ht
      exact Option.noConfusion ht
    obtain ⟨s', b', h1, h2, h3, h4, h5, h6, h7, h8, h9, h10, h11, h12, h13⟩ :=
      ih (i + 1) (drawTile L blend i (some tex) s)
        { b with pixels := fun px py => blendOver blend px py (b.pixels px py) (cs i, tileDest L e0 i) }
        (by rw [hstep]; exact htarget) (by rw [hstep]) hw hh (by rw [hstep])
        (by
          intro j hj1 hj2
          obtain ⟨tex', ht', hc'⟩ := htex j (by omega) (by omega)
          refine ⟨tex', ?_, hc'⟩
          rw [hstep]
          simp only
          rw [List.getElem?_set_ne (by omega)]
          exact ht')
    refine ⟨s', b', ?_, h2, h3, h4, h5, ?_, ?_, ?_, h9, ?_, ?_, ?_, ?_⟩
    · simp only [drawTilesLoop, ht]; exact h1
    · intro px py
      rw [h6 px py]
      simp [List.range'_succ]
    · rw [h7, hstep]; simp [List.range'_succ]
    · rw [h8, Nat.add_assoc, Nat.add_comm 1 n]
    · rw [h10, hstep]
    · rw [h11, hstep]
      exact handlesOf_set _ _ _ _ ht rfl
    · rw [h12, hstep]
    · rw [h13, hstep]

/-! ## The presentation loop -/

theorem handleEvent_eq (p : Option SDL_Event) : handleEvent p = !isExitTrigger p := by
  cases p with
  | none => rfl
  | some ev =>
    simp only [handleEvent, isExitTrigger]
    have hne : SDL_WINDOWEVENT ≠ SDL_KEYDOWN := by decide
    have hne' : SDL_KEYDOWN ≠ SDL_WINDOWEVENT := by decide
    by_cases h1 : ev.type = SDL_WINDOWEVENT
    · by_cases h3 : ev.window_event = SDL_WINDOWEVENT_CLOSE <;> simp [h1, h3, hne]
    · by_cases h2 : ev.type = SDL_KEYDOWN
      · by_cases h3 : ev.key_state = SDL_PRESSED
        · by_cases h4 : ev.key_sym = SDLK_ESCAPE <;> simp [h2, h3, h4, hne']
        · simp [h2, h3, hne']
      · simp [h1, h2]

theorem draw_eq (blend : Nat → Nat → Nat) (s : State) (b : SDL_Texture)
    (hbuf : s.buffer = some b) (hw : s.outW = 1024) (hh : s.outH = 768) :
    draw blend s =
      { s with
        target := Target.window, drawColor := ARGB8888 255 0 0 0,
        clip := some { x := 0, y := 0, w := 1024, h := 768 },
        buffer := some { b with blendMode := SDL_BlendMode.NONE },
        screen := frameOf b, presented := s.presented ++ [frameOf b],
        trace := s.trace ++ [Call.draw, Call.present] } := by
  have hp : paint blend { b with blendMode := SDL_BlendMode.NONE }
      { x := 0, y := 0, w := 1024, h := 768 } (some { x := 0, y := 0, w := 1024, h := 768 })
      1024 768 (fun _ _ => ARGB8888 255 0 0 0) = frameOf b := by
    funext px py
    simp only [paint, frameOf, compose, SDL_Rect.covers, Option.mem_def, Option.some.injEq,
      forall_eq', zero_add, sub_zero]
    by_cases h : 0 ≤ px ∧ px < 1024 ∧ 0 ≤ py ∧ py < 768
    · rw [if_pos h, if_pos ⟨h, h, h⟩]
    · rw [if_neg h, if_neg (fun hc => h hc.1)]
  simp [draw, State.log, SDL_SetRenderTarget, SDL_SetRenderDrawColor, SDL_RenderClear,
    SDL_SetTextureBlendMode, SDL_RenderSetClipRect, SDL_RenderCopy, SDL_RenderPresent, hbuf,
    hw, hh, hp, SDL_ALPHA_OPAQUE]

theorem mainLoop_eq (blend : Nat → Nat → Nat) (polls : List (Option SDL_Event)) (s : State)
    (b : SDL_Texture) (hbuf : s.buffer = some b) (hw : s.outW = 1024) (hh : s.outH = 768) :
    ∃ s' b', mainLoop blend polls s = (polls.any isExitTrigger, s') ∧
      s'.buffer = some b' ∧ b'.pixels = b.pixels ∧ b'.handle = b.handle ∧
      s'.engine = s.engine ∧ s'.textures = s.textures ∧
      s'.trace = s.trace ++ loopCalls polls ∧
      s'.presented = s.presented ++ List.replicate (pollsBeforeExit polls) (frameOf b) := by
  induction polls generalizing s b with
  | nil => exact ⟨s, b, rfl, hbuf, rfl, rfl, rfl, rfl, by simp [loopCalls], by simp [pollsBeforeExit]⟩
  | cons p ps ih =>
    by_cases hp : isExitTrigger p = true
    · refine ⟨s.log Call.pollEvent, b, ?_, hbuf, rfl, rfl, rfl, rfl, ?_, ?_⟩
      · simp [mainLoop, handleEvent_eq, hp]
      · simp [loopCalls, hp, State.log]
      · simp [pollsBeforeExit, hp, State.log]
    · have hd := draw_eq blend (s.log Call.pollEvent) b hbuf hw hh
      obtain ⟨s', b', h1, h2, h3, h4, h5, h6, h7, h8⟩ :=
        ih (draw blend (s.log Call.pollEvent)) { b with blendMode := SDL_BlendMode.NONE }
          (by rw [hd]) (by rw [hd]; exact hw) (by rw [hd]; exact hh)
      refine ⟨s', b', ?_, h2, h3, h4, ?_, ?_, ?_, ?_⟩
      · simp [mainLoop, handleEvent_eq, hp, h1]
      · rw [h5, hd]; rfl
      · rw [h6, hd]; rfl
      · rw [h7, hd]; simp [loopCalls, hp, State.log]
      · have hf : frameOf { b with blendMode := SDL_BlendMode.NONE } = frameOf b := rfl
        rw [hf] at h8
        rw [h8, hd]
        simp [pollsBeforeExit, hp, State.log, List.replicate_succ]

/-! ## Whole runs -/

theorem destroyTiles_eq (ts : List (Option SDL_Texture)) :
    destroyTiles ts = (handlesOf ts).map Call.release := by
  induction ts with
  | nil => rfl
  | cons t ts ih =>
    cases t with
    | none => simpa [destroyTiles, handlesOf] using ih
    | some t => simpa [destroyTiles, handlesOf] using ih

theorem createTextures_ok (L : StdLib) (w : World) (s : State)
    (hb : w.bufferOk = true) (ht : TilesOk w) :
    createTextures L w s =
      (true, { s with
        buffer := some { handle := Resource.buffer, w := 1024, h := 768,
                         pixels := w.bufferInit, blendMode := SDL_BlendMode.NONE },
        engine := engineAfter L s.engine 480,
        textures := s.textures ++ (List.range' 0 NUM_TEXTURES).map
          (fun j => some (tileTexture j (tileColor L s.engine j))),
        trace := s.trace ++ [Call.acquire Resource.buffer] ++
          (List.range' 0 NUM_TEXTURES).flatMap (fun j => tileCalls j (tileColor L s.engine j)) }) := by
  simp only [createTextures, hb, State.log]
  rw [if_neg (by simp)]
  have hok : ∀ j, 0 ≤ j → j < 0 + NUM_TEXTURES →
      w.surfaceOk j = true ∧ w.textureOk j = true := fun j _ h => ht j (by omega)
  exact createTexturesLoop_ok L w s.engine NUM_TEXTURES 0 _ (by rfl) (by decide) hok

theorem getElem?_tiles (f : Nat → Option SDL_Texture) (n j : Nat) (h : j < n) :
    ((List.range' 0 n).map f)[j]? = some (f j) := by
  rw [List.getElem?_map, List.getElem?_range' 0 1 h]
  simp

theorem handlesOf_tiles (c : Nat → Nat) (n : Nat) :
    handlesOf ((List.range' 0 n).map fun j => some (tileTexture j (c j)))
      = (List.range' 0 n).map Resource.tile := by
  simp only [handlesOf, List.filterMap_map]
  rw [← List.filterMap_eq_map]
  rfl

theorem main_ok (L : StdLib) (blend : Nat → Nat → Nat) (w : World) (e : Engine)
    (hs : SetupOk w) (ht : TilesOk w) :
    ∃ s' b', main L blend w e =
        (if w.polls.any isExitTrigger = true then Outcome.exit 0 else Outcome.running, s') ∧
      s'.buffer = some b' ∧
      (∀ px py, b'.pixels px py =
        (tilesOf L e NUM_TEXTURES).foldl (blendOver blend px py) (ARGB8888 255 0 0 0)) ∧
      s'.trace = startupCalls L e ++ loopCalls w.polls ++
        (if w.polls.any isExitTrigger = true then shutdownCalls else []) ∧
      s'.presented = List.replicate (pollsBeforeExit w.polls) (frameOf b') ∧
      s'.engine = engineAfter L e 720 := by
  obtain ⟨h1, h2, h3, h4, h5⟩ := hs
  have hct := createTextures_ok L w
    (SDL_RenderSetLogicalSize 1024 768
      (((initialState w e).log (Call.acquire Resource.window)).log
        (Call.acquire Resource.renderer))) h5 ht
  obtain ⟨s1, hs1, hb1, he1, htx1, htr1, hw1, hh1, hp1⟩ : ∃ s1 : State,
      createTextures L w (SDL_RenderSetLogicalSize 1024 768
        (((initialState w e).log (Call.acquire Resource.window)).log
          (Call.acquire Resource.renderer))) = (true, s1) ∧
      s1.buffer = some (SDL_Texture.mk Resource.buffer 1024 768 w.bufferInit SDL_BlendMode.NONE) ∧
      s1.engine = engineAfter L e 480 ∧
      s1.textures = (List.range' 0 NUM_TEXTURES).map
        (fun j => some (tileTexture j (tileColor L e j))) ∧
      s1.trace = [Call.acquire Resource.window, Call.acquire Resource.renderer,
        Call.acquire Resource.buffer] ++
        (List.range' 0 NUM_TEXTURES).flatMap (fun j => tileCalls j (tileColor L e j)) ∧
      s1.outW = 1024 ∧ s1.outH = 768 ∧ s1.presented = [] :=
    ⟨_, hct, rfl, rfl, by simp [initialState, SDL_RenderSetLogicalSize, State.log],
      by simp [initialState, SDL_RenderSetLogicalSize, State.log], rfl, rfl, rfl⟩
  obtain ⟨s2, b2, hd2, hb2, hbw2, hbh2, hbh, hpx2, htr2, he2, htg2, hp2, hhd2, hw2, hh2⟩ :=
    drawTilesLoop_ok L blend e (tileColor L e) NUM_TEXTURES 0 (drawTilesBegin s1)
      (SDL_Texture.mk Resource.buffer 1024 768 (fun _ _ => ARGB8888 255 0 0 0) SDL_BlendMode.NONE)
      (by simp [drawTilesBegin, State.log, SDL_SetRenderTarget, SDL_SetRenderDrawColor,
            SDL_RenderClear, hb1])
      (by simp [drawTilesBegin, State.log, SDL_SetRenderTarget, SDL_SetRenderDrawColor,
            SDL_RenderClear, hb1, SDL_ALPHA_OPAQUE])
      rfl rfl
      (by simp [drawTilesBegin, State.log, SDL_SetRenderTarget, SDL_SetRenderDrawColor,
            SDL_RenderClear, hb1, he1])
      (by
        intro j _ hj
        refine ⟨tileTexture j (tileColor L e j), ?_, rfl⟩
        have : (drawTilesBegin s1).textures = s1.textures := by
          simp [drawTilesBegin, State.log, SDL_SetRenderTarget, SDL_SetRenderDrawColor,
            SDL_RenderClear, hb1]
        rw [this, htx1]
        exact getElem?_tiles _ _ _ (by omega))
  have hbegin : (drawTilesBegin s1).trace = s1.trace ++ [Call.drawTiles] ∧
      (drawTilesBegin s1).presented = s1.presented ∧
      (drawTilesBegin s1).textures = s1.textures ∧
      (drawTilesBegin s1).outW = s1.outW ∧ (drawTilesBegin s1).outH = s1.outH := by
    simp [drawTilesBegin, State.log, SDL_SetRenderTarget, SDL_SetRenderDrawColor,
      SDL_RenderClear, hb1]
  obtain ⟨s3, b3, hl3, hb3, hpx3, hbh3, he3, htx3, htr3, hp3⟩ :=
    mainLoop_eq blend w.polls s2 b2 hb2 (by rw [hw2, hbegin.2.2.2.1, hw1])
      (by rw [hh2, hbegin.2.2.2.2, hh1])
  have hfr : frameOf b3 = frameOf b2 := by unfold frameOf; rw [hpx3]
  have hpix : ∀ px py, b3.pixels px py =
      (tilesOf L e NUM_TEXTURES).foldl (blendOver blend px py) (ARGB8888 255 0 0 0) := by
    intro px py
    rw [hpx3, hpx2 px py]
    rfl
  have hstart : s2.trace = startupCalls L e := by
    rw [htr2, hbegin.1, htr1]
    simp [startupCalls]
  have hmain : main L blend w e =
      (match mainLoop blend w.polls s2 with
        | (false, s) => (Outcome.running, s)
        | (true, s) =>
          (Outcome.exit 0, (((destroyTextures s).log (Call.release Resource.renderer)).log
            (Call.release Resource.window)).log Call.quit)) := by
    simp only [main]
    rw [if_neg h1, if_neg (by simp [h2]), if_neg (by simp [h3]), if_neg (by simp [h4]), hs1]
    simp only [drawTiles, hd2]
  rw [hmain, hl3]
  by_cases hany : w.polls.any isExitTrigger = true
  · rw [hany]
    simp only [if_true]
    refine ⟨_, b3, rfl, ?_, hpix, ?_, ?_, ?_⟩
    · simp [destroyTextures, State.log, hb3]
    · simp only [destroyTextures, State.log, hb3, destroyTiles_eq, htx3, hhd2, hbegin.2.2.1,
        htx1, handlesOf_tiles, htr3, hstart, hbh3, hbh, shutdownCalls, shutdownCallsOf]
      simp
    · simp only [destroyTextures, State.log, hb3]
      rw [hp3, hp2, hbegin.2.1, hp1, hfr]
      simp
    · simp only [destroyTextures, State.log, hb3]
      rw [he3, he2]
      rfl
  · have hany' : w.polls.any isExitTrigger = false := by simpa using hany
    rw [hany']
    simp only [Bool.false_eq_true, if_false]
    refine ⟨s3, b3, rfl, hb3, hpix, ?_, ?_, ?_⟩
    · rw [htr3, hstart]; simp
    · rw [hp3, hp2, hbegin.2.1, hp1, hfr]; simp
    · rw [he3, he2]; rfl

/-- When subsystem initialisation, the display-mode query, window creation,
renderer creation or composite-buffer creation fails, `main` returns 1 with no
tile generated, the engine untouched, nothing presented, and no call in the
record but the creation of the window and of the renderer. -/
theorem main_setupFail (L : StdLib) (blend : Nat → Nat → Nat) (w : World) (e : Engine)
    (hs : ¬ SetupOk w) :
    (main L blend w e).1 = Outcome.exit 1 ∧ (main L blend w e).2.textures = [] ∧
    (main L blend w e).2.presented = [] ∧ (main L blend w e).2.engine = e ∧
    (∀ c ∈ (main L blend w e).2.trace,
      c = Call.acquire Resource.window ∨ c = Call.acquire Resource.renderer) := by
  simp only [main]
  by_cases h1 : w.initRet = -1
  · rw [if_pos h1]; simp [initialState]
  rw [if_neg h1]
  by_cases h2 : w.modeRet = 0
  swap
  · rw [if_pos h2]; simp [initialState]
  rw [if_neg (by simp [h2])]
  by_cases h3 : w.windowOk = false
  · rw [if_pos h3]; simp [initialState]
  rw [if_neg h3]
  by_cases h4 : w.rendererOk = false
  · rw [if_pos h4]; simp [initialState, State.log]
  rw [if_neg h4]
  have h5 : w.bufferOk = false := by
    by_contra h5
    exact hs ⟨h1, h2, by simpa using h3, by simpa using h4, by simpa using h5⟩
  simp [createTextures, h5, initialState, State.log, SDL_RenderSetLogicalSize]

/-- Every run that gets past the creation of the composite buffer: what it
returns, what it presents and the calls it makes, `k` being the number of
tiles `createTextures` made. -/
theorem main_gen (L : StdLib) (blend : Nat → Nat → Nat) (w : World) (e : Engine)
    (hs : SetupOk w) :
    ∃ k tr1 tr2 s' b, k ≤ NUM_TEXTURES ∧
      main L blend w e =
        (if w.polls.any isExitTrigger = true then Outcome.exit 0 else Outcome.running, s') ∧
      s'.buffer = some b ∧
      s'.presented = List.replicate (pollsBeforeExit w.polls) (frameOf b) ∧
      s'.trace = [Call.acquire Resource.window, Call.acquire Resource.renderer,
          Call.acquire Resource.buffer] ++ tr1 ++ [Call.drawTiles] ++ tr2 ++
          loopCalls w.polls ++
          (if w.polls.any isExitTrigger = true then shutdownCallsOf k else []) ∧
      (∀ c ∈ tr1, ∃ j, j < NUM_TEXTURES ∧ c ∈ tileCalls j (tileColor L e j)) ∧
      acquired tr1 = (List.range' 0 k).map Resource.tile ∧ released tr1 = [] ∧
      (∀ c ∈ tr2, ∃ j d, (c = Call.renderCopy j d ∨ c = Call.copyRejected j d) ∧
        j < NUM_TEXTURES ∧ destInBuffer d) ∧
      (s'.textures.length = k) := by
  obtain ⟨h1, h2, h3, h4, h5⟩ := hs
  obtain ⟨e1, k, tr, heq, htr, hacq, hrel, hlen, _⟩ :=
    createTexturesLoop_gen L w e NUM_TEXTURES 0 (loopStart w e) (by rfl) (by decide)
  have hfst := createTexturesLoop_fst L w NUM_TEXTURES 0 (loopStart w e)
  obtain ⟨s1, hs1, hb1, htx1, htr1, hw1, hh1, hp1⟩ : ∃ s1 : State,
      createTextures L w (SDL_RenderSetLogicalSize 1024 768
        (((initialState w e).log (Call.acquire Resource.window)).log
          (Call.acquire Resource.renderer))) = (true, s1) ∧
      s1.buffer = some (SDL_Texture.mk Resource.buffer 1024 768 w.bufferInit SDL_BlendMode.NONE) ∧
      s1.textures = (List.range' 0 k).map
        (fun j => some (tileTexture j (tileColor L e j))) ∧
      s1.trace = [Call.acquire Resource.window, Call.acquire Resource.renderer,
        Call.acquire Resource.buffer] ++ tr ∧
      s1.outW = 1024 ∧ s1.outH = 768 ∧ s1.presented = [] := by
    refine ⟨(createTexturesLoop L w NUM_TEXTURES 0 (loopStart w e)).2, ?_, ?_, ?_, ?_, ?_, ?_, ?_⟩
    · simp only [createTextures]
      rw [if_neg (by simp [h5])]
      exact Prod.ext hfst rfl
    · rw [heq]; rfl
    · rw [heq]; simp [loopStart, stateBeforeTextures, initialState, SDL_RenderSetLogicalSize,
        State.log]
    · rw [heq]; simp [loopStart, stateBeforeTextures, initialState, SDL_RenderSetLogicalSize,
        State.log]
    · rw [heq]; rfl
    · rw [heq]; rfl
    · rw [heq]; rfl
  have hbegin : (drawTilesBegin s1).trace = s1.trace ++ [Call.drawTiles] ∧
      (drawTilesBegin s1).presented = s1.presented ∧
      (drawTilesBegin s1).textures = s1.textures ∧
      (drawTilesBegin s1).outW = s1.outW ∧ (drawTilesBegin s1).outH = s1.outH ∧
      (drawTilesBegin s1).buffer.map SDL_Texture.handle = some Resource.buffer := by
    simp [drawTilesBegin, State.log, SDL_SetRenderTarget, SDL_SetRenderDrawColor,
      SDL_RenderClear, hb1]
  obtain ⟨tr2, hd1, hd2, hd3, hd4, hd5, hd6, hd7⟩ :=
    drawTilesLoop_gen L blend NUM_TEXTURES 0 (drawTilesBegin s1)
  have hd8 := drawTilesLoop_len L blend NUM_TEXTURES 0 (drawTilesBegin s1)
  rw [hbegin.2.2.2.2.2] at hd6
  obtain ⟨b2, hb2, hbh2⟩ : ∃ b2, (drawTilesLoop L blend NUM_TEXTURES 0
      (drawTilesBegin s1)).2.buffer = some b2 ∧ b2.handle = Resource.buffer := by
    cases hb : (drawTilesLoop L blend NUM_TEXTURES 0 (drawTilesBegin s1)).2.buffer with
    | none => rw [hb] at hd6; simp at hd6
    | some b2 => rw [hb] at hd6; exact ⟨b2, rfl, by simpa using hd6⟩
  obtain ⟨s3, b3, hl3, hb3, hpx3, hbh3, he3, htx3, htr3, hp3⟩ :=
    mainLoop_eq blend w.polls _ b2 hb2 (by rw [hd4, hbegin.2.2.2.1, hw1])
      (by rw [hd5, hbegin.2.2.2.2.1, hh1])
  have hfr : frameOf b3 = frameOf b2 := by unfold frameOf; rw [hpx3]
  have hstart : (drawTilesLoop L blend NUM_TEXTURES 0 (drawTilesBegin s1)).2.trace
      = [Call.acquire Resource.window, Call.acquire Resource.renderer,
          Call.acquire Resource.buffer] ++ tr ++ [Call.drawTiles] ++ tr2 := by
    rw [hd1, hbegin.1, htr1]
  have hhand : handlesOf s3.textures = (List.range' 0 k).map Resource.tile := by
    rw [htx3, hd7, hbegin.2.2.1, htx1]
    exact handlesOf_tiles _ _
  have hmain : main L blend w e =
      (match mainLoop blend w.polls
          (drawTilesLoop L blend NUM_TEXTURES 0 (drawTilesBegin s1)).2 with
        | (false, s) => (Outcome.running, s)
        | (true, s) =>
          (Outcome.exit 0, (((destroyTextures s).log (Call.release Resource.renderer)).log
            (Call.release Resource.window)).log Call.quit)) := by
    simp only [main]
    rw [if_neg h1, if_neg (by simp [h2]), if_neg (by simp [h3]), if_neg (by simp [h4]), hs1]
    rfl
  have htr1' : ∀ c ∈ tr, ∃ j, j < NUM_TEXTURES ∧ c ∈ tileCalls j (tileColor L e j) := by
    intro c hc
    obtain ⟨j, _, hj, hm⟩ := htr c hc
    exact ⟨j, by omega, hm⟩
  have htr2' : ∀ c ∈ tr2, ∃ j d, (c = Call.renderCopy j d ∨ c = Call.copyRejected j d) ∧
      j < NUM_TEXTURES ∧ destInBuffer d := by
    intro c hc
    obtain ⟨j, d, h1, _, h3, h4⟩ := hd2 c hc
    exact ⟨j, d, h1, by omega, h4⟩
  have hlen3 : s3.textures.length = k := by
    rw [htx3, hd8, hbegin.2.2.1, htx1]; simp
  rw [hmain, hl3]
  by_cases hany : w.polls.any isExitTrigger = true
  · rw [hany]
    simp only [if_true]
    refine ⟨k, tr, tr2, _, b3, hlen, rfl, ?_, ?_, ?_, htr1', hacq, hrel, htr2', ?_⟩
    · simp [destroyTextures, State.log, hb3]
    · simp only [destroyTextures, State.log, hb3]
      rw [hp3, hd3, hbegin.2.1, hp1, hfr]
      simp
    · simp only [destroyTextures, State.log, hb3, destroyTiles_eq, hhand, htr3, hstart, hbh3,
        hbh2, shutdownCallsOf]
      simp
    · simp [destroyTextures, State.log, hb3, hlen3]
  · have hany' : w.polls.any isExitTrigger = false := by simpa using hany
    rw [hany']
    simp only [Bool.false_eq_true, if_false]
    refine ⟨k, tr, tr2, s3, b3, hlen, rfl, hb3, ?_, ?_, htr1', hacq, hrel, htr2', hlen3⟩
    · rw [hp3, hd3, hbegin.2.1, hp1, hfr]; simp
    · rw [htr3, hstart]; simp

theorem draw_gen (blend : Nat → Nat → Nat) (s : State) :
    (draw blend s).trace = s.trace ++ [Call.draw, Call.present] ∧
    (draw blend s).engine = s.engine ∧ (draw blend s).textures = s.textures ∧
    (draw blend s).buffer.map SDL_Texture.pixels = s.buffer.map SDL_Texture.pixels := by
  cases hb : s.buffer <;>
    simp [draw, State.log, SDL_SetRenderTarget, SDL_SetRenderDrawColor, SDL_RenderClear,
      SDL_SetTextureBlendMode, SDL_RenderSetClipRect, SDL_RenderCopy, SDL_RenderPresent, hb]

theorem mainLoop_gen (blend : Nat → Nat → Nat) (polls : List (Option SDL_Event)) (s : State) :
    (mainLoop blend polls s).1 = polls.any isExitTrigger ∧
    (mainLoop blend polls s).2.trace = s.trace ++ loopCalls polls := by
  induction polls generalizing s with
  | nil => simp [mainLoop, loopCalls]
  | cons p ps ih =>
    by_cases hp : isExitTrigger p = true
    · simp [mainLoop, handleEvent_eq, hp, loopCalls, State.log]
    · obtain ⟨h1, h2⟩ := ih (draw blend (s.log Call.pollEvent))
      have hp' : isExitTrigger p = false := by simpa using hp
      have hstep : mainLoop blend (p :: ps) s
          = mainLoop blend ps (draw blend (s.log Call.pollEvent)) := by
        simp only [mainLoop, handleEvent_eq, hp']
        rfl
      rw [hstep]
      refine ⟨?_, ?_⟩
      · rw [h1]; simp [hp']
      · rw [h2, (draw_gen blend _).1]; simp [State.log, loopCalls, hp']

theorem mem_loopCalls (polls : List (Option SDL_Event)) (c : Call) (h : c ∈ loopCalls polls) :
    c = Call.pollEvent ∨ c = Call.draw ∨ c = Call.present := by
  induction polls with
  | nil => simp [loopCalls] at h
  | cons p ps ih =>
    by_cases hp : isExitTrigger p = true
    · rw [loopCalls, if_pos hp] at h
      exact Or.inl (List.mem_singleton.1 h)
    · rw [loopCalls, if_neg hp] at h
      rcases List.mem_cons.1 h with h1 | h1
      · exact Or.inl h1
      · rcases List.mem_cons.1 h1 with h2 | h2
        · exact Or.inr (Or.inl h2)
        · rcases List.mem_cons.1 h2 with h3 | h3
          · exact Or.inr (Or.inr h3)
          · exact ih h3

theorem mem_shutdownCallsOf (k : Nat) (c : Call) (h : c ∈ shutdownCallsOf k) :
    c = Call.quit ∨ ∃ r, c = Call.release r := by
  unfold shutdownCallsOf at h
  rcases List.mem_append.1 h with h | h
  · rcases List.mem_append.1 h with h | h
    · exact Or.inr ⟨_, List.mem_singleton.1 h⟩
    · obtain ⟨i, _, hi⟩ := List.mem_map.1 h
      exact Or.inr ⟨_, hi.symm⟩
  · simp only [List.mem_cons, List.mem_singleton, List.not_mem_nil, or_false] at h
    rcases h with h | h | h
    · exact Or.inr ⟨_, h⟩
    · exact Or.inr ⟨_, h⟩
    · exact Or.inl h

theorem mem_shutdownCalls (c : Call) (h : c ∈ shutdownCalls) :
    c = Call.quit ∨ ∃ r, c = Call.release r :=
  mem_shutdownCallsOf NUM_TEXTURES c h

/-- The shape of the record of every run that gets past the creation of the
composite buffer. -/
theorem main_trace_shape (L : StdLib) (blend : Nat → Nat → Nat) (w : World) (e : Engine)
    (hs : SetupOk w) :
    ∃ tr1 tr2 tr3, (main L blend w e).2.trace =
        [Call.acquire Resource.window, Call.acquire Resource.renderer,
          Call.acquire Resource.buffer] ++ tr1 ++ [Call.drawTiles] ++ tr2 ++ tr3 ∧
      (∀ c ∈ tr1, ∃ j, j < NUM_TEXTURES ∧ c ∈ tileCalls j (tileColor L e j)) ∧
      (∀ c ∈ tr2, ∃ j d, (c = Call.renderCopy j d ∨ c = Call.copyRejected j d) ∧
        j < NUM_TEXTURES ∧ destInBuffer d) ∧
      (∀ c ∈ tr3, c = Call.pollEvent ∨ c = Call.draw ∨ c = Call.present ∨ c = Call.quit ∨
        ∃ r, c = Call.release r) := by
  obtain ⟨k, tr1, tr2, s', b, _, hm, _, _, htr, h1, _, _, h2, _⟩ := main_gen L blend w e hs
  refine ⟨tr1, tr2,
    loopCalls w.polls ++ (if w.polls.any isExitTrigger = true then shutdownCallsOf k else []),
    ?_, h1, h2, ?_⟩
  · rw [hm]; simp only; rw [htr]; simp
  · intro c hc
    rcases List.mem_append.1 hc with h | h
    · rcases mem_loopCalls _ _ h with h | h | h
      · exact Or.inl h
      · exact Or.inr (Or.inl h)
      · exact Or.inr (Or.inr (Or.inl h))
    · split at h
      · rcases mem_shutdownCallsOf _ _ h with h | h
        · exact Or.inr (Or.inr (Or.inr (Or.inl h)))
        · exact Or.inr (Or.inr (Or.inr (Or.inr h)))
      · simp at h

/-- A run returns 0 only when every setup step before the tiles succeeded and
an exit trigger was polled. -/
theorem main_exit_zero (L : StdLib) (blend : Nat → Nat → Nat) (w : World) (e : Engine)
    (h : (main L blend w e).1 = Outcome.exit 0) :
    SetupOk w ∧ w.polls.any isExitTrigger = true := by
  by_cases hs : SetupOk w
  · refine ⟨hs, ?_⟩
    obtain ⟨k, tr1, tr2, s', b, _, hm, _⟩ := main_gen L blend w e hs
    rw [hm] at h
    by_contra hany
    simp [hany] at h
  · rw [(main_setupFail L blend w e hs).1] at h
    exact absurd h (by decide)

/-- A run returns 1 only when a setup step before the tiles failed. -/
theorem main_exit_one (L : StdLib) (blend : Nat → Nat → Nat) (w : World) (e : Engine)
    (h : (main L blend w e).1 = Outcome.exit 1) : ¬ SetupOk w := by
  intro hs
  obtain ⟨k, tr1, tr2, s', b, _, hm, _⟩ := main_gen L blend w e hs
  rw [hm] at h
  by_cases hany : w.polls.any isExitTrigger = true
  · simp [hany] at h
  · simp [hany] at h

theorem goodWorld_setupOk : SetupOk goodWorld := by
  refine ⟨by decide, rfl, rfl, rfl, rfl⟩

theorem goodWorld_tilesOk : TilesOk goodWorld := fun _ _ => ⟨rfl, rfl⟩

/-! ## What the record of a run holds -/

theorem filterMap_loopCalls {β : Type} (f : Call → Option β) (polls : List (Option SDL_Event))
    (h1 : f Call.pollEvent = none) (h2 : f Call.draw = none) (h3 : f Call.present = none) :
    (loopCalls polls).filterMap f = [] := by
  rw [List.filterMap_eq_nil_iff]
  intro c hc
  rcases mem_loopCalls _ _ hc with h | h | h <;> rw [h] <;> assumption

theorem filterMap_tileCalls {β : Type} (f : Call → Option β) (c : Nat → Nat) (l : List Nat) :
    (l.flatMap fun i => tileCalls i (c i)).filterMap f
      = l.flatMap fun i => (tileCalls i (c i)).filterMap f := by
  induction l with
  | nil => rfl
  | cons a l ih => simp only [List.flatMap_cons, List.filterMap_append, ih]

theorem drawPositions_startup (L : StdLib) (e : Engine) (l : List Nat) :
    drawPositions ([Call.acquire Resource.window, Call.acquire Resource.renderer,
        Call.acquire Resource.buffer] ++
        (l.flatMap fun i => tileCalls i (tileColor L e i)) ++ [Call.drawTiles] ++
        l.map (fun i => Call.renderCopy i (tileDest L e i)))
      = l.map (fun i => (i, tileDest L e i)) := by
  have h1 : drawPositions (l.flatMap fun i => tileCalls i (tileColor L e i)) = [] := by
    unfold drawPositions
    rw [filterMap_tileCalls]
    induction l with
    | nil => rfl
    | cons a l ih => simp only [List.flatMap_cons, ih]; rfl
  have h2 : drawPositions (l.map (fun i => Call.renderCopy i (tileDest L e i)))
      = l.map (fun i => (i, tileDest L e i)) := by
    unfold drawPositions
    clear h1
    induction l with
    | nil => rfl
    | cons a l ih => simp only [List.map_cons, List.filterMap_cons, ih]
  have happ : ∀ a b : List Call, drawPositions (a ++ b) = drawPositions a ++ drawPositions b :=
    fun a b => List.filterMap_append _ _ _
  rw [happ, happ, happ, h1, h2]
  rfl

theorem acquired_startup (L : StdLib) (e : Engine) (l : List Nat) :
    acquired ([Call.acquire Resource.window, Call.acquire Resource.renderer,
        Call.acquire Resource.buffer] ++
        (l.flatMap fun i => tileCalls i (tileColor L e i)) ++ [Call.drawTiles] ++
        l.map (fun i => Call.renderCopy i (tileDest L e i)))
      = [Resource.window, Resource.renderer, Resource.buffer] ++ l.map Resource.tile := by
  have h1 : acquired (l.flatMap fun i => tileCalls i (tileColor L e i))
      = l.map Resource.tile := by
    unfold acquired
    rw [filterMap_tileCalls]
    induction l with
    | nil => rfl
    | cons a l ih => simp only [List.flatMap_cons, List.map_cons, ih]; rfl
  have h2 : acquired (l.map (fun i => Call.renderCopy i (tileDest L e i))) = [] := by
    unfold acquired
    clear h1
    induction l with
    | nil => rfl
    | cons a l ih => simp only [List.map_cons, List.filterMap_cons, ih]
  have happ : ∀ a b : List Call, acquired (a ++ b) = acquired a ++ acquired b :=
    fun a b => List.filterMap_append _ _ _
  rw [happ, happ, happ, h1, h2]
  simp [acquired, isGraphics]

theorem released_startup (L : StdLib) (e : Engine) (l : List Nat) :
    released ([Call.acquire Resource.window, Call.acquire Resource.renderer,
        Call.acquire Resource.buffer] ++
        (l.flatMap fun i => tileCalls i (tileColor L e i)) ++ [Call.drawTiles] ++
        l.map (fun i => Call.renderCopy i (tileDest L e i))) = [] := by
  have h1 : released (l.flatMap fun i => tileCalls i (tileColor L e i)) = [] := by
    unfold released
    rw [filterMap_tileCalls]
    induction l with
    | nil => rfl
    | cons a l ih => simp only [List.flatMap_cons, ih]; rfl
  have h2 : released (l.map (fun i => Call.renderCopy i (tileDest L e i))) = [] := by
    unfold released
    clear h1
    induction l with
    | nil => rfl
    | cons a l ih => simp only [List.map_cons, List.filterMap_cons, ih]
  have happ : ∀ a b : List Call, released (a ++ b) = released a ++ released b :=
    fun a b => List.filterMap_append _ _ _
  rw [happ, happ, happ, h1, h2]
  simp [released]

theorem released_shutdown (l : List Nat) :
    released ([Call.release Resource.buffer] ++
        l.map (fun i => Call.release (Resource.tile i)) ++
        [Call.release Resource.renderer, Call.release Resource.window, Call.quit])
      = [Resource.buffer] ++ l.map Resource.tile ++ [Resource.renderer, Resource.window] := by
  have h2 : released (l.map (fun i => Call.release (Resource.tile i))) = l.map Resource.tile := by
    unfold released
    induction l with
    | nil => rfl
    | cons a l ih => simp only [List.map_cons, List.filterMap_cons, ih]; rfl
  have happ : ∀ a b : List Call, released (a ++ b) = released a ++ released b :=
    fun a b => List.filterMap_append _ _ _
  rw [happ, happ, h2]
  simp [released, isGraphics]

theorem filterMap_shutdownCallsOf {β : Type} (f : Call → Option β)
    (h1 : ∀ r, f (Call.release r) = none) (h2 : f Call.quit = none) (b : Bool) (k : Nat) :
    (if b = true then shutdownCallsOf k else []).filterMap f = [] := by
  rw [List.filterMap_eq_nil_iff]
  intro c hc
  split at hc
  · rcases mem_shutdownCallsOf _ _ hc with h | ⟨r, h⟩
    · rw [h]; exact h2
    · rw [h]; exact h1 r
  · simp at hc

theorem filterMap_shutdownCalls {β : Type} (f : Call → Option β)
    (h1 : ∀ r, f (Call.release r) = none) (h2 : f Call.quit = none) (b : Bool) :
    (if b = true then shutdownCalls else []).filterMap f = [] :=
  filterMap_shutdownCallsOf f h1 h2 b NUM_TEXTURES

theorem drawPositions_ok (L : StdLib) (e : Engine) (polls : List (Option SDL_Event)) :
    drawPositions (startupCalls L e ++ loopCalls polls ++
        (if polls.any isExitTrigger = true then shutdownCalls else []))
      = (List.range' 0 NUM_TEXTURES).map (fun i => (i, tileDest L e i)) := by
  have happ : ∀ a b : List Call, drawPositions (a ++ b) = drawPositions a ++ drawPositions b :=
    fun a b => List.filterMap_append _ _ _
  have h1 : drawPositions (startupCalls L e) = _ := drawPositions_startup L e _
  have h2 : drawPositions (loopCalls polls) = [] := filterMap_loopCalls _ _ rfl rfl rfl
  have h3 : drawPositions (if polls.any isExitTrigger = true then shutdownCalls else []) = [] :=
    filterMap_shutdownCalls _ (fun _ => rfl) rfl _
  rw [happ, happ, h1, h2, h3, List.append_nil, List.append_nil]

theorem goodWorld_presented_length :
    (main modLib testBlend goodWorld testEngine).2.presented.length = 2 := by
  obtain ⟨s', b', hm, _, _, _, hp, _⟩ :=
    main_ok modLib testBlend goodWorld testEngine goodWorld_setupOk goodWorld_tilesOk
  rw [hm]
  simp only
  rw [hp, List.length_replicate]
  decide

/-- The graphics resources a run without a failed creation call acquires and
releases when an exit trigger is polled. -/
theorem main_ok_resources (L : StdLib) (blend : Nat → Nat → Nat) (w : World) (e : Engine)
    (hs : SetupOk w) (ht : TilesOk w) (hany : w.polls.any isExitTrigger = true) :
    acquired (main L blend w e).2.trace
      = [Resource.window, Resource.renderer, Resource.buffer] ++
          (List.range' 0 NUM_TEXTURES).map Resource.tile ∧
    released (main L blend w e).2.trace
      = [Resource.buffer] ++ (List.range' 0 NUM_TEXTURES).map Resource.tile ++
          [Resource.renderer, Resource.window] := by
  obtain ⟨s', b', hm, _, _, htr, _, _⟩ := main_ok L blend w e hs ht
  rw [hm]
  simp only
  rw [htr, hany]
  simp only [if_true]
  have ha : ∀ a b : List Call, acquired (a ++ b) = acquired a ++ acquired b :=
    fun a b => List.filterMap_append _ _ _
  have hr : ∀ a b : List Call, released (a ++ b) = released a ++ released b :=
    fun a b => List.filterMap_append _ _ _
  have a1 : acquired (startupCalls L e) = _ := acquired_startup L e _
  have a2 : acquired (loopCalls w.polls) = [] := filterMap_loopCalls _ _ rfl rfl rfl
  have a3 : acquired shutdownCalls = [] := by
    have h := filterMap_shutdownCalls (fun c =>
      match c with
      | Call.acquire r => if isGraphics r = true then some r else none
      | _ => none) (fun _ => rfl) rfl true
    rw [if_pos rfl] at h
    exact h
  have r1 : released (startupCalls L e) = [] := released_startup L e _
  have r2 : released (loopCalls w.polls) = [] := filterMap_loopCalls _ _ rfl rfl rfl
  have r3 : released shutdownCalls = _ := released_shutdown _
  constructor
  · rw [ha, ha, a1, a2, a3, List.append_nil, List.append_nil]
  · rw [hr, hr, r1, r2, r3, List.append_nil, List.nil_append]

theorem goodWorld_exit_zero :
    (main modLib testBlend goodWorld testEngine).1 = Outcome.exit 0 := by
  obtain ⟨s', b', hm, _⟩ :=
    main_ok modLib testBlend goodWorld testEngine goodWorld_setupOk goodWorld_tilesOk
  rw [hm]
  have hany : goodWorld.polls.any isExitTrigger = true := by decide
  simp only [hany, if_true]


theorem engineAfter_modLib (e : Engine) (k : Nat) :
    engineAfter modLib e k = { e with pos := e.pos + k } := by
  induction k with
  | zero => rfl
  | succ k ih =>
    show (modLib.uniform _ _ (engineAfter modLib e k)).2 = _
    rw [ih]
    rfl

theorem draws_modLib (a b : Nat) (e : Engine) (k : Nat) :
    draws modLib a b e k = scale a b (e.outputs (e.pos + k)) := by
  show (modLib.uniform a b (engineAfter modLib e k)).1 = _
  rw [engineAfter_modLib]
  rfl

/-- The graphics resources a run acquires and releases when it gets past setup
and an exit trigger is polled, `k` being the number of tiles it created. -/
theorem main_gen_resources (L : StdLib) (blend : Nat → Nat → Nat) (w : World) (e : Engine)
    (hs : SetupOk w) (hany : w.polls.any isExitTrigger = true) :
    ∃ k, k ≤ NUM_TEXTURES ∧ (main L blend w e).2.textures.length = k ∧
      acquired (main L blend w e).2.trace
        = [Resource.window, Resource.renderer, Resource.buffer] ++
            (List.range' 0 k).map Resource.tile ∧
      released (main L blend w e).2.trace
        = [Resource.buffer] ++ (List.range' 0 k).map Resource.tile ++
            [Resource.renderer, Resource.window] := by
  obtain ⟨k, tr1, tr2, s', b, hk, hm, _, _, htr, h1, hacq, hrel, h2, hlen⟩ :=
    main_gen L blend w e hs
  refine ⟨k, hk, by rw [hm]; exact hlen, ?_, ?_⟩
  · rw [hm]
    simp only
    rw [htr, hany]
    simp only [if_true]
    have ha : ∀ a b : List Call, acquired (a ++ b) = acquired a ++ acquired b :=
      fun a b => List.filterMap_append _ _ _
    have a2 : acquired tr2 = [] := by
      unfold acquired
      rw [List.filterMap_eq_nil_iff]
      intro c hc
      obtain ⟨j, d, h | h, _⟩ := h2 c hc <;> rw [h]
    have a3 : acquired (loopCalls w.polls) = [] := filterMap_loopCalls _ _ rfl rfl rfl
    have a4 : acquired (shutdownCallsOf k) = [] := by
      have h := filterMap_shutdownCallsOf (fun c =>
        match c with
        | Call.acquire r => if isGraphics r = true then some r else none
        | _ => none) (fun _ => rfl) rfl true k
      rw [if_pos rfl] at h
      exact h
    rw [ha, ha, ha, ha, ha, hacq, a2, a3, a4]
    simp [acquired, isGraphics]
  · rw [hm]
    simp only
    rw [htr, hany]
    simp only [if_true]
    have hr : ∀ a b : List Call, released (a ++ b) = released a ++ released b :=
      fun a b => List.filterMap_append _ _ _
    have r2 : released tr2 = [] := by
      unfold released
      rw [List.filterMap_eq_nil_iff]
      intro c hc
      obtain ⟨j, d, h | h, _⟩ := h2 c hc <;> rw [h]
    have r3 : released (loopCalls w.polls) = [] := filterMap_loopCalls _ _ rfl rfl rfl
    have r4 : released (shutdownCallsOf k) = _ := released_shutdown _
    rw [hr, hr, hr, hr, hr, hrel, r2, r3, r4]
    simp [released]
/-! # Properties of the program -/

set_option maxRecDepth 100000

/-- C1, the code at a failing input. When `SDL_CreateRGBSurfaceWithFormat`
returns a null pointer for tile 0, `createTextures` leaves by `return 1;`,
which is `true`: `main` does not exit with status 1, it goes on to invoke
`drawTiles`, whose first read `textures[0]` is past the end of the empty
vector, enters the presentation loop and returns 0. The same holds when
`SDL_CreateTextureFromSurface` fails for tile 1. -/
theorem createTextures_failed_allocation_returns_true :
    (createTextures modLib surfaceFailWorld (stateBeforeTextures surfaceFailWorld testEngine)).1
      = true ∧
    (main modLib testBlend surfaceFailWorld testEngine).1 ≠ Outcome.exit 1 ∧
    (main modLib testBlend surfaceFailWorld testEngine).1 = Outcome.exit 0 ∧
    Call.drawTiles ∈ (main modLib testBlend surfaceFailWorld testEngine).2.trace ∧
    (createTextures modLib textureFailWorld (stateBeforeTextures textureFailWorld testEngine)).1
      = true ∧
    (main modLib testBlend textureFailWorld testEngine).1 ≠ Outcome.exit 1 ∧
    Call.drawTiles ∈ (main modLib testBlend textureFailWorld testEngine).2.trace := by
  refine ⟨by decide, by decide, by decide, by decide, by decide, by decide, by decide⟩

/-- C3, the code at a failing input. When `SDL_CreateTextureFromSurface`
returns a null pointer for tile 1, `createTextures` returns `true` with a
collection of one tile instead of 120, control reaches `drawTiles`, and the
read `textures[1]` there is out of bounds. -/
theorem createTextures_true_with_one_tile :
    (createTextures modLib textureFailWorld (stateBeforeTextures textureFailWorld testEngine)).1
      = true ∧
    (createTextures modLib textureFailWorld
      (stateBeforeTextures textureFailWorld testEngine)).2.textures.length = 1 ∧
    ((createTextures modLib textureFailWorld
      (stateBeforeTextures textureFailWorld testEngine)).2.textures[1]?).isNone = true ∧
    (drawTiles modLib testBlend (createTextures modLib textureFailWorld
      (stateBeforeTextures textureFailWorld testEngine)).2).1 = false ∧
    drawPositions (main modLib testBlend textureFailWorld testEngine).2.trace
      = [(0, { x := 720, y := 384, w := 90, h := 60 })] := by
  refine ⟨by decide, by decide, by decide, by decide, by decide⟩

/-- C2, the code at a failing input. `SDL_CreateTextureFromSurface` returns a
null pointer for tile 1, a setup step that failed; `createTextures` leaves by
`return 1;`, which is `true`, and `main` goes on: it invokes `drawTiles`,
presents twice and returns 0 with one tile in the collection. -/
theorem main_returns_zero_after_failed_tile :
    textureFailWorld.textureOk 1 = false ∧
    (main modLib testBlend textureFailWorld testEngine).1 = Outcome.exit 0 ∧
    (main modLib testBlend textureFailWorld testEngine).2.textures.length = 1 ∧
    Call.acquire (Resource.tile 1) ∉ (main modLib testBlend textureFailWorld testEngine).2.trace ∧
    (main modLib testBlend textureFailWorld testEngine).2.trace.count Call.drawTiles = 1 ∧
    (main modLib testBlend textureFailWorld testEngine).2.trace.count Call.present = 2 := by
  refine ⟨by decide, by decide, by decide, by decide, by decide, by decide⟩

/-- C4. For every tile `i` and every engine, the four channels sampled for the
tile (`r`, `g`, `b`, `a` from the distribution calls `4i .. 4i+3`) lie in
`[10, 255]`, and
the fill colour `a << 24 | r << 16 | g << 8 | b` carries them unmixed: bits
24-31 are `a`, bits 16-23 are `r`, bits 8-15 are `g`, bits 0-7 are `b`, so
every byte of the ARGB8888 word lies in `[10, 255]`. Every `SDL_FillRect` of a
run uses this colour word. -/
theorem fill_color_channels (L : StdLib) (blend : Nat → Nat → Nat) (w : World) (e : Engine) :
    (∀ i,
      (∀ k, k < 4 → 10 ≤ draws L 10 255 e (4 * i + k) ∧ draws L 10 255 e (4 * i + k) ≤ 255) ∧
      tileColor L e i = color (draws L 10 255 e (4 * i + 3)) (draws L 10 255 e (4 * i))
        (draws L 10 255 e (4 * i + 1)) (draws L 10 255 e (4 * i + 2)) ∧
      tileColor L e i / 2 ^ 24 % 256 = draws L 10 255 e (4 * i + 3) ∧
      tileColor L e i / 2 ^ 16 % 256 = draws L 10 255 e (4 * i) ∧
      tileColor L e i / 2 ^ 8 % 256 = draws L 10 255 e (4 * i + 1) ∧
      tileColor L e i % 256 = draws L 10 255 e (4 * i + 2) ∧
      tileColor L e i < 2 ^ 32 ∧
      (10 ≤ tileColor L e i / 2 ^ 24 % 256 ∧ tileColor L e i / 2 ^ 24 % 256 ≤ 255) ∧
      (10 ≤ tileColor L e i / 2 ^ 16 % 256 ∧ tileColor L e i / 2 ^ 16 % 256 ≤ 255) ∧
      (10 ≤ tileColor L e i / 2 ^ 8 % 256 ∧ tileColor L e i / 2 ^ 8 % 256 ≤ 255) ∧
      (10 ≤ tileColor L e i % 256 ∧ tileColor L e i % 256 ≤ 255)) ∧
    (∀ i c, Call.fillRect i c ∈ (main L blend w e).2.trace →
      i < NUM_TEXTURES ∧ c = tileColor L e i) := by
  constructor
  · intro i
    have hr := draws_range L e 10 255 (4 * i) (by omega)
    have hg := draws_range L e 10 255 (4 * i + 1) (by omega)
    have hb := draws_range L e 10 255 (4 * i + 2) (by omega)
    have ha := draws_range L e 10 255 (4 * i + 3) (by omega)
    have hcol : tileColor L e i = ARGB8888 (draws L 10 255 e (4 * i + 3))
        (draws L 10 255 e (4 * i)) (draws L 10 255 e (4 * i + 1))
        (draws L 10 255 e (4 * i + 2)) := by
      unfold tileColor
      rw [Nat.mod_eq_of_lt (show draws L 10 255 e (4 * i + 3) < 256 by omega),
        Nat.mod_eq_of_lt (show draws L 10 255 e (4 * i) < 256 by omega),
        Nat.mod_eq_of_lt (show draws L 10 255 e (4 * i + 1) < 256 by omega),
        Nat.mod_eq_of_lt (show draws L 10 255 e (4 * i + 2) < 256 by omega)]
      exact color_eq_ARGB8888 (by omega) (by omega) (by omega) (by omega)
    obtain ⟨b1, b2, b3, b4⟩ := ARGB8888_bytes (show draws L 10 255 e (4 * i + 3) < 256 by omega)
      (show draws L 10 255 e (4 * i) < 256 by omega)
      (show draws L 10 255 e (4 * i + 1) < 256 by omega)
      (show draws L 10 255 e (4 * i + 2) < 256 by omega)
    refine ⟨?_, ?_, ?_, ?_, ?_, ?_, ?_, ?_, ?_, ?_, ?_⟩
    · intro k hk
      exact draws_range L e 10 255 (4 * i + k) (by omega)
    · rw [hcol]
      exact (color_eq_ARGB8888 (by omega) (by omega) (by omega) (by omega)).symm
    · rw [hcol]; exact b1
    · rw [hcol]; exact b2
    · rw [hcol]; exact b3
    · rw [hcol]; exact b4
    · rw [hcol]; unfold ARGB8888; omega
    · rw [hcol, b1]; exact ha
    · rw [hcol, b2]; exact hr
    · rw [hcol, b3]; exact hg
    · rw [hcol, b4]; exact hb
  · intro i c hmem
    by_cases hs : SetupOk w
    · obtain ⟨tr1, tr2, tr3, htr, h1, h2, h3⟩ := main_trace_shape L blend w e hs
      rw [htr] at hmem
      simp only [List.mem_append, List.mem_cons, List.mem_singleton, List.not_mem_nil,
        or_false] at hmem
      rcases hmem with (((hm | hm) | hm) | hm) | hm
      · rcases hm with h | h | h <;> exact Call.noConfusion h
      · obtain ⟨j, hj, hjm⟩ := h1 _ hm
        simp only [tileCalls, List.mem_cons, List.mem_singleton, List.not_mem_nil,
          or_false] at hjm
        rcases hjm with h | h | h | h
        · exact Call.noConfusion h
        · obtain ⟨rfl, rfl⟩ := Call.fillRect.inj h
          exact ⟨hj, rfl⟩
        · exact Call.noConfusion h
        · exact Call.noConfusion h
      · exact Call.noConfusion hm
      · obtain ⟨j, d', hc | hc, _, _⟩ := h2 _ hm <;> exact Call.noConfusion hc
      · rcases h3 _ hm with h | h | h | h | ⟨_, h⟩ <;> exact Call.noConfusion h
    · obtain ⟨_, _, _, _, h5⟩ := main_setupFail L blend w e hs
      rcases h5 _ hmem with h | h <;> exact Call.noConfusion h

/-- C4 at a concrete run: the fill of tile 0 in a run whose second texture
cannot be created. -/
theorem fill_color_channels_witness :
    Call.fillRect 0 (tileColor modLib testEngine 0)
        ∈ (main modLib testBlend textureFailWorld testEngine).2.trace ∧
      (0 < NUM_TEXTURES ∧ tileColor modLib testEngine 0 = tileColor modLib testEngine 0) ∧
      (10 ≤ tileColor modLib testEngine 0 / 2 ^ 24 % 256 ∧
        tileColor modLib testEngine 0 / 2 ^ 24 % 256 ≤ 255) :=
  ⟨by decide,
    (fill_color_channels modLib testBlend textureFailWorld testEngine).2 0 _ (by decide),
    ((fill_color_channels modLib testBlend textureFailWorld testEngine).1 0).2.2.2.2.2.2.2.1⟩

/-- C5. In every run, whatever the engine puts out, each destination
rectangle `drawTiles` passes to `SDL_RenderCopy` (for a tile, or for a pointer
read past the end that SDL rejects) has width 90 and height 60 and a
position with `0 ≤ x ≤ 934` and `0 ≤ y ≤ 708`, so `x + 90 ≤ 1024` and
`y + 60 ≤ 768`: it lies inside the 1024x768 composite buffer. When no creation
call fails there are 120 such rectangles, one per tile, tile `i` going to
`tileDest L e i`. -/
theorem drawTiles_dest_inside_buffer (L : StdLib) (blend : Nat → Nat → Nat) (w : World)
    (e : Engine) :
    (∀ i d, Call.renderCopy i d ∈ (main L blend w e).2.trace →
      i < NUM_TEXTURES ∧ d.w = 90 ∧ d.h = 60 ∧ 0 ≤ d.x ∧ d.x ≤ 1024 - 90 ∧ 0 ≤ d.y ∧
      d.y ≤ 768 - 60 ∧ d.x + d.w ≤ 1024 ∧ d.y + d.h ≤ 768) ∧
    (SetupOk w → TilesOk w →
      drawPositions (main L blend w e).2.trace
        = (List.range' 0 NUM_TEXTURES).map (fun i => (i, tileDest L e i))) ∧
    (∀ i d, Call.copyRejected i d ∈ (main L blend w e).2.trace →
      i < NUM_TEXTURES ∧ d.w = 90 ∧ d.h = 60 ∧ 0 ≤ d.x ∧ d.x ≤ 1024 - 90 ∧ 0 ≤ d.y ∧
      d.y ≤ 768 - 60 ∧ d.x + d.w ≤ 1024 ∧ d.y + d.h ≤ 768) := by
  refine ⟨?_, ?_, ?_⟩
  · intro i d hmem
    by_cases hs : SetupOk w
    · obtain ⟨tr1, tr2, tr3, htr, h1, h2, h3⟩ := main_trace_shape L blend w e hs
      rw [htr] at hmem
      simp only [List.mem_append, List.mem_cons, List.mem_singleton, List.not_mem_nil,
        or_false] at hmem
      rcases hmem with (((hm | hm) | hm) | hm) | hm
      · rcases hm with h | h | h <;> exact Call.noConfusion h
      · obtain ⟨j, _, hj⟩ := h1 _ hm
        simp only [tileCalls, List.mem_cons, List.mem_singleton, List.not_mem_nil,
          or_false] at hj
        rcases hj with h | h | h | h <;> exact Call.noConfusion h
      · exact Call.noConfusion hm
      · obtain ⟨j, d', hc | hc, hj, hd⟩ := h2 _ hm
        · obtain ⟨rfl, rfl⟩ := Call.renderCopy.inj hc
          obtain ⟨a1, a2, a3, a4, a5, a6, a7, a8⟩ := hd
          refine ⟨hj, a1, a2, a3, by omega, a5, by omega, by omega, by omega⟩
        · exact Call.noConfusion hc
      · rcases h3 _ hm with h | h | h | h | ⟨_, h⟩ <;> exact Call.noConfusion h
    · obtain ⟨_, _, _, _, h5⟩ := main_setupFail L blend w e hs
      rcases h5 _ hmem with h | h <;> exact Call.noConfusion h
  · intro hs ht
    obtain ⟨s', b', hm, _, _, htr, _, _⟩ := main_ok L blend w e hs ht
    rw [hm]
    simp only
    rw [htr]
    exact drawPositions_ok L e w.polls
  · intro i d hmem
    by_cases hs : SetupOk w
    · obtain ⟨tr1, tr2, tr3, htr, h1, h2, h3⟩ := main_trace_shape L blend w e hs
      rw [htr] at hmem
      simp only [List.mem_append, List.mem_cons, List.mem_singleton, List.not_mem_nil,
        or_false] at hmem
      rcases hmem with (((hm | hm) | hm) | hm) | hm
      · rcases hm with h | h | h <;> exact Call.noConfusion h
      · obtain ⟨j, _, hj⟩ := h1 _ hm
        simp only [tileCalls, List.mem_cons, List.mem_singleton, List.not_mem_nil,
          or_false] at hj
        rcases hj with h | h | h | h <;> exact Call.noConfusion h
      · exact Call.noConfusion hm
      · obtain ⟨j, d', hc | hc, hj, hd⟩ := h2 _ hm
        · exact Call.noConfusion hc
        · obtain ⟨rfl, rfl⟩ := Call.copyRejected.inj hc
          obtain ⟨a1, a2, a3, a4, a5, a6, a7, a8⟩ := hd
          refine ⟨hj, a1, a2, a3, by omega, a5, by omega, by omega, by omega⟩
      · rcases h3 _ hm with h | h | h | h | ⟨_, h⟩ <;> exact Call.noConfusion h
    · obtain ⟨_, _, _, _, h5⟩ := main_setupFail L blend w e hs
      rcases h5 _ hmem with h | h <;> exact Call.noConfusion h

/-- C5 at a concrete run: tile 0 of a run whose second texture cannot be
created is copied to (720, 384), inside the buffer. -/
theorem drawTiles_dest_inside_buffer_witness :
    Call.renderCopy 0 { x := 720, y := 384, w := 90, h := 60 }
        ∈ (main modLib testBlend textureFailWorld testEngine).2.trace ∧
      (720 : Int) + 90 ≤ 1024 ∧ (384 : Int) + 60 ≤ 768 :=
  ⟨by decide,
    ((drawTiles_dest_inside_buffer modLib testBlend textureFailWorld testEngine).1 0
      { x := 720, y := 384, w := 90, h := 60 } (by decide)).2.2.2.2.2.2.2.1,
    ((drawTiles_dest_inside_buffer modLib testBlend textureFailWorld testEngine).1 0
      { x := 720, y := 384, w := 90, h := 60 } (by decide)).2.2.2.2.2.2.2.2⟩

/-- C6. In a run without a failed creation call, the composite pass clears
the buffer to opaque black and then blends the tiles over it in generation
order `i = 0 .. 119`, tile `i` with its one colour over its 90x60 rectangle:
every pixel of the buffer is the in-order fold of the blends of the tiles that
cover it. In particular, when the engine gives tile 0 the channels
(200, 50, 80, 255) and the position (10, 20), then after the first iteration
of the tile loop every pixel of (10,20)-(100,80) holds ARGB(255,200,50,80)
blended over opaque black, and every other pixel is still the opaque black of
the cleared buffer. -/
theorem drawTiles_blends_in_order (L : StdLib) (blend : Nat → Nat → Nat) (w : World) (e : Engine)
    (hs : SetupOk w) (ht : TilesOk w) :
    (∃ b, (main L blend w e).2.buffer = some b ∧
      ∀ px py, b.pixels px py =
        (tilesOf L e NUM_TEXTURES).foldl (blendOver blend px py) (ARGB8888 255 0 0 0)) ∧
    (∃ b0, (drawTilesBegin (createTextures L w (stateBeforeTextures w e)).2).buffer = some b0 ∧
      ∀ px py, b0.pixels px py = ARGB8888 255 0 0 0) ∧
    (draws L 10 255 e 0 = 200 → draws L 10 255 e 1 = 50 → draws L 10 255 e 2 = 80 →
      draws L 10 255 e 3 = 255 → draws L 0 934 e 480 = 10 → draws L 0 708 e 481 = 20 →
      ∃ b1, (drawTilesLoop L blend 1 0
          (drawTilesBegin (createTextures L w (stateBeforeTextures w e)).2)).2.buffer = some b1 ∧
        ∀ px py, b1.pixels px py =
          if 10 ≤ px ∧ px < 100 ∧ 20 ≤ py ∧ py < 80 then
            blend (ARGB8888 255 200 50 80) (ARGB8888 255 0 0 0)
          else ARGB8888 255 0 0 0) := by
  have hct := createTextures_ok L w (stateBeforeTextures w e) hs.2.2.2.2 ht
  have hb0 : (drawTilesBegin (createTextures L w (stateBeforeTextures w e)).2).buffer
      = some (SDL_Texture.mk Resource.buffer 1024 768 (fun _ _ => ARGB8888 255 0 0 0)
          SDL_BlendMode.NONE) := by
    rw [hct]
    simp [drawTilesBegin, State.log, SDL_SetRenderTarget, SDL_SetRenderDrawColor,
      SDL_RenderClear, SDL_ALPHA_OPAQUE]
  refine ⟨?_, ⟨_, hb0, fun _ _ => rfl⟩, ?_⟩
  · obtain ⟨s', b', hm, hb, hpx, _⟩ := main_ok L blend w e hs ht
    exact ⟨b', by rw [hm]; exact hb, hpx⟩
  · intro hr hg hb ha hx hy
    obtain ⟨s2, b2, hd2, hb2, _, _, _, hpx2, _⟩ :=
      drawTilesLoop_ok L blend e (tileColor L e) 1 0
        (drawTilesBegin (createTextures L w (stateBeforeTextures w e)).2)
        (SDL_Texture.mk Resource.buffer 1024 768 (fun _ _ => ARGB8888 255 0 0 0)
          SDL_BlendMode.NONE)
        (by rw [hct]
            simp [drawTilesBegin, State.log, SDL_SetRenderTarget, SDL_SetRenderDrawColor,
              SDL_RenderClear])
        hb0 rfl rfl
        (by rw [hct]
            simp [drawTilesBegin, State.log, SDL_SetRenderTarget, SDL_SetRenderDrawColor,
              SDL_RenderClear, stateBeforeTextures, SDL_RenderSetLogicalSize, initialState])
        (by
          intro j _ hj
          refine ⟨tileTexture j (tileColor L e j), ?_, rfl⟩
          have hj0 : j = 0 := by omega
          subst hj0
          rw [hct]
          simp [drawTilesBegin, State.log, SDL_SetRenderTarget, SDL_SetRenderDrawColor,
            SDL_RenderClear, stateBeforeTextures, SDL_RenderSetLogicalSize, initialState,
            NUM_TEXTURES, List.range'_succ])
    refine ⟨b2, by rw [hd2]; exact hb2, ?_⟩
    intro px py
    rw [hpx2 px py]
    have hcol : tileColor L e 0 = ARGB8888 255 200 50 80 := by
      simp only [tileColor, Nat.mul_zero, Nat.zero_add, hr, hg, hb, ha]
      decide
    have hdest : tileDest L e 0 = { x := 10, y := 20, w := 90, h := 60 } := by
      simp only [tileDest, Nat.mul_zero, Nat.add_zero, hx, hy]
      rfl
    simp only [List.range'_one, List.map_cons, List.map_nil, List.foldl_cons, List.foldl_nil,
      blendOver, hcol, hdest, SDL_Rect.covers]
    by_cases hin : 10 ≤ px ∧ px < 100 ∧ 20 ≤ py ∧ py < 80
    · rw [if_pos hin, if_pos ⟨hin.1, by omega, hin.2.2.1, by omega⟩]
    · rw [if_neg hin, if_neg (fun h => hin ⟨h.1, by omega, h.2.2.1, by omega⟩)]

/-- C6 at a concrete run: the engine `scenarioEngine` gives tile 0 the
channels (200, 50, 80, 255) and the position (10, 20); the pixel (10, 20) then
holds the blend and the pixel (9, 20) is still opaque black. -/
theorem drawTiles_blends_in_order_witness :
    SetupOk goodWorld ∧ TilesOk goodWorld ∧
    draws modLib 10 255 scenarioEngine 0 = 200 ∧ draws modLib 0 934 scenarioEngine 480 = 10 ∧
    ∃ b1, (drawTilesLoop modLib testBlend 1 0 (drawTilesBegin (createTextures modLib goodWorld
        (stateBeforeTextures goodWorld scenarioEngine)).2)).2.buffer = some b1 ∧
      ∀ px py, b1.pixels px py =
        if 10 ≤ px ∧ px < 100 ∧ 20 ≤ py ∧ py < 80 then
          testBlend (ARGB8888 255 200 50 80) (ARGB8888 255 0 0 0)
        else ARGB8888 255 0 0 0 :=
  ⟨goodWorld_setupOk, goodWorld_tilesOk, by rw [draws_modLib]; decide,
    by rw [draws_modLib]; decide,
    (drawTiles_blends_in_order modLib testBlend goodWorld scenarioEngine goodWorld_setupOk
      goodWorld_tilesOk).2.2 (by rw [draws_modLib]; decide) (by rw [draws_modLib]; decide)
      (by rw [draws_modLib]; decide) (by rw [draws_modLib]; decide)
      (by rw [draws_modLib]; decide) (by rw [draws_modLib]; decide)⟩

/-- C7. In every run that gets past setup, whatever events are polled,
`drawTiles` is invoked exactly once, and before any poll, `draw` or present
call. Each call of `draw` leaves the pixels of the composite buffer, the tile
collection and the random engine as they were. So every image presented is
the same: the copy `frameOf b` of the buffer `b` the run ends with. -/
theorem composite_pass_runs_once (L : StdLib) (blend : Nat → Nat → Nat) (w : World)
    (e : Engine) (hs : SetupOk w) :
    (∃ pre post, (main L blend w e).2.trace = pre ++ Call.drawTiles :: post ∧
      Call.drawTiles ∉ pre ∧ Call.drawTiles ∉ post ∧
      Call.pollEvent ∉ pre ∧ Call.draw ∉ pre ∧ Call.present ∉ pre) ∧
    (main L blend w e).2.trace.count Call.drawTiles = 1 ∧
    (∀ s : State, (draw blend s).engine = s.engine ∧ (draw blend s).textures = s.textures ∧
      (draw blend s).buffer.map SDL_Texture.pixels = s.buffer.map SDL_Texture.pixels) ∧
    (∀ b, (main L blend w e).2.buffer = some b →
      ∀ f ∈ (main L blend w e).2.presented, f = frameOf b) ∧
    (∀ f ∈ (main L blend w e).2.presented, ∀ g ∈ (main L blend w e).2.presented, f = g) := by
  obtain ⟨tr1, tr2, tr3, htr, h1, h2, h3⟩ := main_trace_shape L blend w e hs
  have hpre : ∀ c ∈ [Call.acquire Resource.window, Call.acquire Resource.renderer,
      Call.acquire Resource.buffer] ++ tr1,
      c ≠ Call.drawTiles ∧ c ≠ Call.pollEvent ∧ c ≠ Call.draw ∧ c ≠ Call.present := by
    intro c hc
    rcases List.mem_append.1 hc with hc | hc
    · simp only [List.mem_cons, List.mem_singleton, List.not_mem_nil, or_false] at hc
      rcases hc with h | h | h <;> rw [h] <;> decide
    · obtain ⟨j, _, hj⟩ := h1 c hc
      simp only [tileCalls, List.mem_cons, List.mem_singleton, List.not_mem_nil,
        or_false] at hj
      rcases hj with h | h | h | h <;> rw [h] <;>
        exact ⟨fun h => Call.noConfusion h, fun h => Call.noConfusion h,
          fun h => Call.noConfusion h, fun h => Call.noConfusion h⟩
  have hpost : ∀ c ∈ tr2 ++ tr3, c ≠ Call.drawTiles := by
    intro c hc
    rcases List.mem_append.1 hc with hc | hc
    · obtain ⟨j, d, h | h, _⟩ := h2 c hc <;> rw [h] <;> exact fun h => Call.noConfusion h
    · rcases h3 c hc with h | h | h | h | ⟨_, h⟩ <;> rw [h] <;>
        exact fun h => Call.noConfusion h
  have hsame : ∀ b, (main L blend w e).2.buffer = some b →
      ∀ f ∈ (main L blend w e).2.presented, f = frameOf b := by
    intro b hb f hf
    obtain ⟨k, t1, t2, s', b', _, hm, hb', hp, _⟩ := main_gen L blend w e hs
    rw [hm] at hb hf
    simp only at hb hf
    rw [hb'] at hb
    obtain rfl := Option.some.inj hb
    rw [hp] at hf
    exact (List.mem_replicate.1 hf).2
  refine ⟨⟨[Call.acquire Resource.window, Call.acquire Resource.renderer,
      Call.acquire Resource.buffer] ++ tr1, tr2 ++ tr3, ?_, ?_, ?_, ?_, ?_, ?_⟩, ?_, ?_,
      hsame, ?_⟩
  · rw [htr]; simp
  · exact fun h => (hpre _ h).1 rfl
  · exact fun h => hpost _ h rfl
  · exact fun h => (hpre _ h).2.1 rfl
  · exact fun h => (hpre _ h).2.2.1 rfl
  · exact fun h => (hpre _ h).2.2.2 rfl
  · have e1 : ([Call.acquire Resource.window, Call.acquire Resource.renderer,
        Call.acquire Resource.buffer] ++ tr1).count Call.drawTiles = 0 :=
      List.count_eq_zero.2 (fun h => (hpre _ h).1 rfl)
    have e2 : (tr2 ++ tr3).count Call.drawTiles = 0 :=
      List.count_eq_zero.2 (fun h => hpost _ h rfl)
    have e3 : (main L blend w e).2.trace = ([Call.acquire Resource.window,
        Call.acquire Resource.renderer, Call.acquire Resource.buffer] ++ tr1) ++
        (Call.drawTiles :: (tr2 ++ tr3)) := by rw [htr]; simp
    rw [e3, List.count_append, List.count_cons_self, e1, e2]
  · intro s
    exact (draw_gen blend s).2
  · intro f hf g hg
    obtain ⟨k, t1, t2, s', b', _, hm, hb', _⟩ := main_gen L blend w e hs
    have hb : (main L blend w e).2.buffer = some b' := by rw [hm]; exact hb'
    rw [hsame b' hb f hf, hsame b' hb g hg]

/-- C7 at a concrete run, which presents twice. -/
theorem composite_pass_runs_once_witness :
    SetupOk goodWorld ∧
    (main modLib testBlend goodWorld testEngine).2.trace.count Call.drawTiles = 1 ∧
    (main modLib testBlend goodWorld testEngine).2.presented.length = 2 :=
  ⟨goodWorld_setupOk,
    (composite_pass_runs_once modLib testBlend goodWorld testEngine goodWorld_setupOk).2.1,
    goodWorld_presented_length⟩

/-- C8. One iteration ends the loop, without `draw`, exactly when the polled
event is a window event with sub-event window-close or a key-down event in
pressed state with key escape; on every other poll result (another event, or
none pending) `draw` is called once, with one present call, and the loop goes
on. So the present calls of the loop are as many as the polls that precede the
first exit trigger: none when the first poll finds a window-close event. -/
theorem loop_presents_until_exit_trigger :
    (∀ p : Option SDL_Event, handleEvent p = false ↔
      ∃ ev, p = some ev ∧
        ((ev.type = SDL_WINDOWEVENT ∧ ev.window_event = SDL_WINDOWEVENT_CLOSE) ∨
         (ev.type = SDL_KEYDOWN ∧ ev.key_state = SDL_PRESSED ∧ ev.key_sym = SDLK_ESCAPE))) ∧
    (∀ (p : Option SDL_Event), isExitTrigger p = !handleEvent p) ∧
    (∀ (blend : Nat → Nat → Nat) (p : Option SDL_Event) (ps : List (Option SDL_Event))
        (s : State),
      (handleEvent p = false →
        mainLoop blend (p :: ps) s = (true, s.log Call.pollEvent)) ∧
      (handleEvent p = true →
        mainLoop blend (p :: ps) s = mainLoop blend ps (draw blend (s.log Call.pollEvent)) ∧
        (draw blend (s.log Call.pollEvent)).trace
          = s.trace ++ [Call.pollEvent, Call.draw, Call.present])) ∧
    (∀ (blend : Nat → Nat → Nat) (polls : List (Option SDL_Event)) (s : State),
      (mainLoop blend polls s).2.trace.count Call.present
        = s.trace.count Call.present + pollsBeforeExit polls ∧
      (mainLoop blend polls s).2.trace.count Call.draw
        = s.trace.count Call.draw + pollsBeforeExit polls ∧
      ((mainLoop blend polls s).1 = true ↔ ∃ p ∈ polls, isExitTrigger p = true)) ∧
    (∀ (blend : Nat → Nat → Nat) (ev : SDL_Event) (ps : List (Option SDL_Event)) (s : State),
      ev.type = SDL_WINDOWEVENT → ev.window_event = SDL_WINDOWEVENT_CLOSE →
      (mainLoop blend (some ev :: ps) s).1 = true ∧
      (mainLoop blend (some ev :: ps) s).2.trace.count Call.present
        = s.trace.count Call.present) ∧
    (∀ (L : StdLib) (blend : Nat → Nat → Nat) (w : World) (e : Engine),
      SetupOk w → TilesOk w →
      (main L blend w e).2.trace.count Call.present = pollsBeforeExit w.polls ∧
      (main L blend w e).2.presented.length = pollsBeforeExit w.polls) := by
  have hspec : ∀ p : Option SDL_Event, isExitTrigger p = true ↔
      ∃ ev, p = some ev ∧
        ((ev.type = SDL_WINDOWEVENT ∧ ev.window_event = SDL_WINDOWEVENT_CLOSE) ∨
         (ev.type = SDL_KEYDOWN ∧ ev.key_state = SDL_PRESSED ∧ ev.key_sym = SDLK_ESCAPE)) := by
    intro p
    cases p with
    | none => simp [isExitTrigger]
    | some ev => simp [isExitTrigger, and_assoc]
  have hcount : ∀ (c : Call) (polls : List (Option SDL_Event)), c = Call.present ∨ c = Call.draw →
      (loopCalls polls).count c = pollsBeforeExit polls := by
    intro c polls hc
    induction polls with
    | nil => rfl
    | cons p ps ih =>
      by_cases hp : isExitTrigger p = true
      · rcases hc with rfl | rfl <;> simp [loopCalls, pollsBeforeExit, hp]
      · simp only [pollsBeforeExit] at ih
        rcases hc with rfl | rfl <;>
          simp [loopCalls, pollsBeforeExit, hp, List.count_cons, ih]
  refine ⟨?_, ?_, ?_, ?_, ?_, ?_⟩
  · intro p
    rw [← hspec p, handleEvent_eq]
    cases isExitTrigger p <;> simp
  · intro p
    rw [handleEvent_eq]
    cases isExitTrigger p <;> rfl
  · intro blend p ps s
    constructor
    · intro h
      simp [mainLoop, h]
    · intro h
      constructor
      · simp [mainLoop, h]
      · rw [(draw_gen blend _).1]
        simp [State.log]
  · intro blend polls s
    obtain ⟨h1, h2⟩ := mainLoop_gen blend polls s
    refine ⟨?_, ?_, ?_⟩
    · rw [h2, List.count_append, hcount _ _ (Or.inl rfl)]
    · rw [h2, List.count_append, hcount _ _ (Or.inr rfl)]
    · rw [h1, List.any_eq_true]
  · intro blend ev ps s h1 h2
    have ht : isExitTrigger (some ev) = true := (hspec _).2 ⟨ev, rfl, Or.inl ⟨h1, h2⟩⟩
    obtain ⟨h3, h4⟩ := mainLoop_gen blend (some ev :: ps) s
    constructor
    · rw [h3]; simp [ht]
    · rw [h4, List.count_append, hcount _ _ (Or.inl rfl)]
      simp [pollsBeforeExit, ht]
  · intro L blend w e hs ht
    obtain ⟨s', b', hm, _, _, htr, hp, _⟩ := main_ok L blend w e hs ht
    rw [hm]
    simp only
    rw [htr, hp]
    constructor
    · rw [List.count_append, List.count_append, hcount _ _ (Or.inl rfl)]
      have h1 : (startupCalls L e).count Call.present = 0 := by
        rw [List.count_eq_zero]
        intro hc
        simp only [startupCalls, List.mem_append, List.mem_flatMap, List.mem_map, tileCalls,
          List.mem_cons, List.mem_singleton, List.not_mem_nil, or_false] at hc
        rcases hc with ((hc | ⟨_, _, hc⟩) | hc) | ⟨_, _, hc⟩
        · rcases hc with h | h | h <;> exact Call.noConfusion h
        · rcases hc with h | h | h | h <;> exact Call.noConfusion h
        · exact Call.noConfusion hc
        · exact Call.noConfusion hc
      have h2 : (if w.polls.any isExitTrigger = true then shutdownCalls else []).count
          Call.present = 0 := by
        rw [List.count_eq_zero]
        intro hc
        split at hc
        · rcases mem_shutdownCalls _ hc with h | ⟨_, h⟩ <;> exact Call.noConfusion h
        · simp at hc
      rw [h1, h2]; simp
    · simp

/-- C8 at a concrete run: two polls (no event, an ordinary key) precede the
window-close event, and the run presents twice. -/
theorem loop_presents_until_exit_trigger_witness :
    SetupOk goodWorld ∧ TilesOk goodWorld ∧ pollsBeforeExit goodWorld.polls = 2 ∧
    (main modLib testBlend goodWorld testEngine).2.trace.count Call.present
      = pollsBeforeExit goodWorld.polls ∧
    (mainLoop testBlend [some closeEvent, none]
      (stateBeforeTextures goodWorld testEngine)).1 = true :=
  ⟨goodWorld_setupOk, goodWorld_tilesOk, by decide,
    (loop_presents_until_exit_trigger.2.2.2.2.2 modLib testBlend goodWorld testEngine
      goodWorld_setupOk goodWorld_tilesOk).1,
    (loop_presents_until_exit_trigger.2.2.2.2.1 testBlend closeEvent [none]
      (stateBeforeTextures goodWorld testEngine) rfl rfl).1⟩

/-- C9 as stated fails. When the renderer cannot be created, `main` returns 1
with the window acquired and nothing released. And in a run that returns 0 the
releases are not the reverse of the acquisitions: the composite buffer,
acquired third, is released first, while the reverse order would start with
the tile acquired last. -/
theorem release_order_counterexample :
    ((main modLib testBlend rendererFailWorld testEngine).1 = Outcome.exit 1 ∧
      acquired (main modLib testBlend rendererFailWorld testEngine).2.trace
        = [Resource.window] ∧
      released (main modLib testBlend rendererFailWorld testEngine).2.trace = []) ∧
    ((main modLib testBlend goodWorld testEngine).1 = Outcome.exit 0 ∧
      (released (main modLib testBlend goodWorld testEngine).2.trace).head?
        = some Resource.buffer ∧
      ((acquired (main modLib testBlend goodWorld testEngine).2.trace).reverse).head?
        = some (Resource.tile 119) ∧
      released (main modLib testBlend goodWorld testEngine).2.trace
        ≠ (acquired (main modLib testBlend goodWorld testEngine).2.trace).reverse) := by
  have hany : goodWorld.polls.any isExitTrigger = true := by decide
  obtain ⟨ha, hr⟩ := main_ok_resources modLib testBlend goodWorld testEngine
    goodWorld_setupOk goodWorld_tilesOk hany
  refine ⟨⟨by decide, by decide, by decide⟩, goodWorld_exit_zero, ?_, ?_, ?_⟩
  · rw [hr]; rfl
  · rw [ha]; decide
  · rw [ha, hr]; decide

/-- C9 as amended. In a run that returns 0, every graphics resource acquired
(window, renderer, composite buffer, each tile texture created: all 120 when
no allocation fails) is released, each exactly once, before `main` returns, in
this order: the composite buffer, the tile textures in the order of their
creation, the renderer, the window. In a run that aborts during setup with
status 1, no resource is released. -/
theorem resources_released_on_clean_shutdown (L : StdLib) (blend : Nat → Nat → Nat)
    (w : World) (e : Engine) :
    ((main L blend w e).1 = Outcome.exit 0 →
      ∃ k, k ≤ NUM_TEXTURES ∧ (TilesOk w → k = NUM_TEXTURES) ∧
      acquired (main L blend w e).2.trace
        = [Resource.window, Resource.renderer, Resource.buffer] ++
            (List.range' 0 k).map Resource.tile ∧
      released (main L blend w e).2.trace
        = [Resource.buffer] ++ (List.range' 0 k).map Resource.tile ++
            [Resource.renderer, Resource.window] ∧
      (released (main L blend w e).2.trace).Perm (acquired (main L blend w e).2.trace) ∧
      (released (main L blend w e).2.trace).Nodup) ∧
    ((main L blend w e).1 = Outcome.exit 1 →
      released (main L blend w e).2.trace = []) := by
  constructor
  · intro h0
    obtain ⟨hs, hany⟩ := main_exit_zero L blend w e h0
    obtain ⟨k, hk, _, ha, hr⟩ := main_gen_resources L blend w e hs hany
    refine ⟨k, hk, ?_, ha, hr, ?_, ?_⟩
    · intro ht
      obtain ⟨ha', _⟩ := main_ok_resources L blend w e hs ht hany
      rw [ha] at ha'
      have hlen := congrArg List.length ha'
      simpa using hlen
    · rw [ha, hr]
      have p1 : ([Resource.buffer] ++ (List.range' 0 k).map Resource.tile ++
          [Resource.renderer, Resource.window]).Perm
          ([Resource.renderer, Resource.window] ++
            ([Resource.buffer] ++ (List.range' 0 k).map Resource.tile)) :=
        List.perm_append_comm
      exact p1.trans (List.Perm.swap _ _ _)
    · rw [hr]
      have hn : ((List.range' 0 k).map Resource.tile).Nodup :=
        (List.nodup_range' 0 k).map (fun a b h => Resource.tile.inj h)
      rw [List.nodup_append]
      refine ⟨?_, by decide, ?_⟩
      · rw [List.singleton_append, List.nodup_cons]
        refine ⟨?_, hn⟩
        intro hm
        obtain ⟨_, _, h⟩ := List.mem_map.1 hm
        exact Resource.noConfusion h
      · intro r hr1 hr2
        have hr3 : r = Resource.renderer ∨ r = Resource.window := by simpa using hr2
        rcases List.mem_append.1 hr1 with h | h
        · have : r = Resource.buffer := by simpa using h
          rcases hr3 with h' | h' <;> rw [this] at h' <;> exact Resource.noConfusion h'
        · obtain ⟨_, _, h⟩ := List.mem_map.1 h
          rcases hr3 with h' | h' <;> rw [← h] at h' <;> exact Resource.noConfusion h'
  · intro h1
    have hs := main_exit_one L blend w e h1
    obtain ⟨_, _, _, _, h5⟩ := main_setupFail L blend w e hs
    unfold released
    rw [List.filterMap_eq_nil_iff]
    intro c hc
    rcases h5 c hc with h | h <;> rw [h]

/-- C9 as amended at concrete runs: one that returns 0, one that aborts when
the renderer cannot be created. -/
theorem resources_released_on_clean_shutdown_witness :
    ((main modLib testBlend goodWorld testEngine).1 = Outcome.exit 0 ∧
      ∃ k, k ≤ NUM_TEXTURES ∧ (TilesOk goodWorld → k = NUM_TEXTURES) ∧
      acquired (main modLib testBlend goodWorld testEngine).2.trace
        = [Resource.window, Resource.renderer, Resource.buffer] ++
            (List.range' 0 k).map Resource.tile ∧
      released (main modLib testBlend goodWorld testEngine).2.trace
        = [Resource.buffer] ++ (List.range' 0 k).map Resource.tile ++
            [Resource.renderer, Resource.window] ∧
      (released (main modLib testBlend goodWorld testEngine).2.trace).Perm
        (acquired (main modLib testBlend goodWorld testEngine).2.trace) ∧
      (released (main modLib testBlend goodWorld testEngine).2.trace).Nodup) ∧
    ((main modLib testBlend rendererFailWorld testEngine).1 = Outcome.exit 1 ∧
      released (main modLib testBlend rendererFailWorld testEngine).2.trace = []) :=
  ⟨⟨goodWorld_exit_zero,
    (resources_released_on_clean_shutdown modLib testBlend goodWorld testEngine).1
      goodWorld_exit_zero⟩,
   ⟨by decide,
    (resources_released_on_clean_shutdown modLib testBlend rendererFailWorld testEngine).2
      (by decide)⟩⟩

end Demo
